import Mathlib

/-!
Verification development for the OneAgenda mesh orchestration core
(giulio-leone/one-agenda). The definitions below are a shallow embedding of
the TypeScript sources:

* `src/services/agents/utils/index.ts` — checkpoint utilities and the
  identifier reconciliation engine (`normalizeGoalPlanIds`,
  `normalizeTaskBreakdownIds`), and `GoalPlannerAgent.processOutput`;
* the mesh orchestrator (`OneAgendaMeshOrchestrator.orchestrate`).

JavaScript `Map`/`Record` insertion-order semantics are modelled by the
`SMap`/`JsMap` association list below; the truthiness of `x || y` on strings
(empty string is falsy) and on numbers (zero is falsy) is modelled by
`jsOrStr` / `jsOrNat`.
-/

namespace OneAgenda

/-- `Checkpoint` interface from `src/services/agents/types.ts`. -/
structure Checkpoint where
  phase : String
  isValid : Bool
  criticalIssues : List String
  warnings : List String
  canContinue : Bool
deriving Repr, DecidableEq

/-- `createPassingCheckpoint(phase, warnings = [])`. -/
def createPassingCheckpoint (phase : String) (warnings : List String := []) : Checkpoint :=
  { phase := phase
    isValid := true
    criticalIssues := []
    warnings := warnings
    canContinue := true }

/-- `createFailingCheckpoint(phase, issues)`. -/
def createFailingCheckpoint (phase : String) (issues : List String) : Checkpoint :=
  { phase := phase
    isValid := false
    criticalIssues := issues
    warnings := []
    canContinue := false }

/-- The message of the `Error` thrown by `assertCheckpoint`
(`\x27` is the ASCII apostrophe that the template literal puts
around the phase name). -/
def checkpointFailMsg (c : Checkpoint) : String :=
  "Checkpoint \x27" ++ c.phase ++ "\x27 failed: " ++ String.intercalate ", " c.criticalIssues

/-- `assertCheckpoint(checkpoint)`: throws when
`!checkpoint.isValid || !checkpoint.canContinue`; a thrown `Error` is
modelled as `Except.error` carrying the message. -/
def assertCheckpoint (c : Checkpoint) : Except String Unit :=
  if !c.isValid || !c.canContinue then
    Except.error (checkpointFailMsg c)
  else
    Except.ok ()

/-! ### JavaScript `Map` / plain-object model

`new Map()` and `{}` records keep string keys in insertion order; `set` /
property assignment replaces the value of an existing key in place, keeping
its position. -/

/-- A JavaScript `Map<string, α>` (also used for plain `Record<string, α>`
objects): an association list in insertion order with unique keys
maintained by `set`. -/
structure JsMap (α : Type) where
  entries : List (String × α)
deriving Repr, DecidableEq

namespace JsMap

/-- The empty map (`new Map()` / `{}`). -/
def empty {α : Type} : JsMap α := ⟨[]⟩

/-- `map.has(k)` / `k in obj`. -/
def contains {α : Type} (m : JsMap α) (k : String) : Bool :=
  m.entries.any (fun p => p.1 == k)

/-- `map.get(k)` (`none` models `undefined`). -/
def get? {α : Type} (m : JsMap α) (k : String) : Option α :=
  (m.entries.find? (fun p => p.1 == k)).map (·.2)

/-- Entry-list update: replace the value at the first occurrence of the
key in place, append `(k, v)` when the key is absent. -/
def setEntries {α : Type} (k : String) (v : α) : List (String × α) → List (String × α)
  | [] => [(k, v)]
  | p :: t => if p.1 == k then (k, v) :: t else p :: setEntries k v t

/-- `map.set(k, v)` / `obj[k] = v`: replace in place if the key exists,
append otherwise. -/
def set {α : Type} (m : JsMap α) (k : String) (v : α) : JsMap α :=
  ⟨setEntries k v m.entries⟩

/-- `map.size`. -/
def size {α : Type} (m : JsMap α) : Nat := m.entries.length

/-- `Array.from(map.values())[0]`. -/
def firstValue? {α : Type} (m : JsMap α) : Option α :=
  m.entries.head?.map (·.2)

end JsMap

/-- `Map<string, string>` as used for the three reconciliation maps. -/
abbrev SMap := JsMap String

/-- JavaScript `a || b` where `a : string | undefined`: the empty string and
`undefined` are falsy. -/
def jsOrStr (a : Option String) (b : String) : String :=
  match a with
  | none => b
  | some v => if v == "" then b else v

/-- JavaScript `a || b` on numbers: `0` is falsy. -/
def jsOrNat (a b : Nat) : Nat :=
  if a == 0 then b else a

/-- JavaScript `!x` for `x : string | undefined`: `undefined` and the empty
string are falsy. -/
def jsFalsy (a : Option String) : Bool :=
  match a with
  | none => true
  | some v => v == ""

/-! ### Planning-time data model (`src/services/agents/types.ts`) -/

/-- `Milestone` interface (fields the reconciliation engine reads or
carries through the object spread). -/
structure Milestone where
  id : String
  name : String
  dueDate : String
  order : Nat
deriving Repr, DecidableEq

/-- `PlannedGoal` interface (fields relevant to reconciliation; the other
fields ride along through the object spread unchanged). -/
structure PlannedGoal where
  id : String
  title : String
  milestones : List Milestone
  successMetrics : List String
deriving Repr, DecidableEq

/-- `GoalConflict` interface. -/
structure GoalConflict where
  goalIds : List String
  description : String
deriving Repr, DecidableEq

/-- `GoalPlan` interface. -/
structure GoalPlan where
  goals : List PlannedGoal
  priorityRanking : List String
  conflicts : List GoalConflict
deriving Repr, DecidableEq

/-- `PlannedTask` interface (fields the reconciliation engine reads or
rewrites; the rest ride along through the object spread). In the raw
worker output `milestoneIndex` may be absent, which the source reads as
`undefined` and defaults via `|| 1`; absence is modelled as `0`, which
`jsOrNat` treats exactly like the source treats `undefined`/`0`. -/
structure PlannedTask where
  id : String
  title : String
  milestoneIndex : Nat
  milestoneId : String
  goalId : String
  dependencies : List String
deriving Repr, DecidableEq

/-- `TaskBreakdown` interface. -/
structure TaskBreakdown where
  tasks : List PlannedTask
  dependencyGraph : JsMap (List String)
  criticalPath : List String
  totalEffortMinutes : Nat
deriving Repr, DecidableEq

/-! ### Identifier reconciliation engine
(`normalizeGoalPlanIds` / `normalizeTaskBreakdownIds` in
`src/services/agents/utils/index.ts`).

`createId()` draws fresh ids from an external generator; it is modelled by
an explicit id supply `f : Nat → String` together with a counter threaded
in call order: the `k`-th `createId()` call of a run returns `f (c + k)`
when the run starts at counter `c`. -/

/-- `String(n).padStart(3, "0")`. -/
def padStart3 (n : Nat) : String :=
  if n < 10 then "00" ++ toString n
  else if n < 100 then "0" ++ toString n
  else toString n

/-- The composite and bare milestone keys registered for the milestone at
0-based index `msIdx` of the goal at 0-based index `goalIdx`: the source's
inner loop body of `normalizeGoalPlanIds`. Returns the updated
`milestoneIdMap`. -/
def registerMilestoneKeys (oldGoalId : String) (goalIdx : Nat) (oldMilestoneId : String)
    (msIdx : Nat) (newMilestoneId : String) (m : SMap) : SMap :=
  let m := m.set oldMilestoneId newMilestoneId
  let goalKeys := [oldGoalId, "goal_" ++ toString (goalIdx + 1)]
  let msKeys := [oldMilestoneId,
    "milestone_" ++ toString (msIdx + 1),
    "milestone_00" ++ toString (msIdx + 1),
    "milestone_" ++ padStart3 (msIdx + 1)]
  let m := goalKeys.foldl
    (fun acc gk =>
      let acc := msKeys.foldl (fun a mk => a.set (gk ++ ":" ++ mk) newMilestoneId) acc
      acc.set (gk ++ ":" ++ toString (msIdx + 1)) newMilestoneId)
    m
  let simpleKeys := ["milestone_" ++ toString (msIdx + 1),
    "milestone_00" ++ toString (msIdx + 1),
    "milestone_" ++ padStart3 (msIdx + 1)]
  simpleKeys.foldl (fun a sk => if a.contains sk then a else a.set sk newMilestoneId) m

/-- The milestone loop of `normalizeGoalPlanIds` for one goal: assigns a
fresh id to each milestone (in order), registers all key combinations, and
rebuilds the milestone list (defaulting `order` via `|| msIdx + 1`).
`c` is the id counter, `msIdx` the 0-based index of the first milestone of
`ms`. -/
def normMilestones (f : Nat → String) (oldGoalId : String) (goalIdx : Nat) :
    Nat → Nat → SMap → List Milestone → List Milestone × SMap × Nat
  | c, _, m, [] => ([], m, c)
  | c, msIdx, m, milestone :: rest =>
    let newMilestoneId := f c
    let m1 := registerMilestoneKeys oldGoalId goalIdx milestone.id msIdx newMilestoneId m
    let out : Milestone :=
      { milestone with id := newMilestoneId, order := jsOrNat milestone.order (msIdx + 1) }
    let (outRest, m2, c2) := normMilestones f oldGoalId goalIdx (c + 1) (msIdx + 1) m1 rest
    (out :: outRest, m2, c2)

/-- The goal loop of `normalizeGoalPlanIds`: per goal, a fresh id is drawn
first, registered under the goal's own id and `goal_{i+1}`, then the goal's
milestones are processed. Returns the rebuilt goal list, the two maps and
the next counter. -/
def normGoals (f : Nat → String) :
    Nat → Nat → SMap → SMap → List PlannedGoal → List PlannedGoal × SMap × SMap × Nat
  | c, _, gMap, mMap, [] => ([], gMap, mMap, c)
  | c, goalIdx, gMap, mMap, goal :: rest =>
    let newGoalId := f c
    let gMap1 := (gMap.set goal.id newGoalId).set ("goal_" ++ toString (goalIdx + 1)) newGoalId
    let (ms, mMap1, c1) := normMilestones f goal.id goalIdx (c + 1) 0 mMap goal.milestones
    let out : PlannedGoal := { goal with id := newGoalId, milestones := ms }
    let (outRest, gMap2, mMap2, c2) := normGoals f c1 (goalIdx + 1) gMap1 mMap1 rest
    (out :: outRest, gMap2, mMap2, c2)

/-- Result record of `normalizeGoalPlanIds`, extended with the id counter
left after the run so that the task pass can be chained. -/
structure NormalizedGoalPlan where
  normalizedPlan : GoalPlan
  goalIdMap : SMap
  milestoneIdMap : SMap
  nextCounter : Nat
deriving Repr, DecidableEq

/-- `normalizeGoalPlanIds(goalPlan)` with the id generator made explicit. -/
def normalizeGoalPlanIds (f : Nat → String) (c : Nat) (goalPlan : GoalPlan) :
    NormalizedGoalPlan :=
  let (goals, gMap, mMap, c1) := normGoals f c 0 JsMap.empty JsMap.empty goalPlan.goals
  { normalizedPlan :=
      { goalPlan with
        goals := goals
        priorityRanking := goalPlan.priorityRanking.map (fun oldId => jsOrStr (gMap.get? oldId) oldId) }
    goalIdMap := gMap
    milestoneIdMap := mMap
    nextCounter := c1 }

/-- First pass of `normalizeTaskBreakdownIds`: assign fresh ids, building
`taskIdMap` (`task.id` and `task_{k+1}` both map to the fresh id). Returns
the retitled task list and the map. The transient `originalId` field the
source adds and strips again is not modelled: it does not survive into the
result. -/
def buildTasksWithNewIds (f : Nat → String) :
    Nat → Nat → SMap → List PlannedTask → List PlannedTask × SMap
  | _, _, tMap, [] => ([], tMap)
  | c, idx, tMap, task :: rest =>
    let newTaskId := f c
    let tMap1 := (tMap.set task.id newTaskId).set ("task_" ++ toString (idx + 1)) newTaskId
    let (outRest, tMap2) := buildTasksWithNewIds f (c + 1) (idx + 1) tMap1 rest
    ({ task with id := newTaskId } :: outRest, tMap2)

/-- Second pass of `normalizeTaskBreakdownIds` for one task: resolve
`goalId` (map hit, single-entry-map fallback, first-goal fallback, raw id),
resolve `milestoneId` from `milestoneIndex` against the resolved goal's own
milestone list, and rewrite `dependencies` through `taskIdMap`. -/
def resolveTask (goalPlan : GoalPlan) (goalIdMap : SMap) (taskIdMap : SMap)
    (task : PlannedTask) : PlannedTask :=
  let r0 := goalIdMap.get? task.goalId
  let r1 := if jsFalsy r0 && goalIdMap.size == 1 then goalIdMap.firstValue? else r0
  let resolvedGoalId :=
    jsOrStr r1 (jsOrStr ((goalPlan.goals.head?).map (·.id)) task.goalId)
  let goal := goalPlan.goals.find? (fun g => g.id == resolvedGoalId)
  let milestoneIndex := jsOrNat task.milestoneIndex 1
  let milestone := goal.bind (fun g => g.milestones.get? (milestoneIndex - 1))
  let resolvedMilestoneId :=
    jsOrStr (milestone.map (·.id))
      (jsOrStr ((goal.bind (fun g => g.milestones.head?)).map (·.id)) "milestone_default")
  let resolvedDependencies := task.dependencies.map (fun dep => jsOrStr (taskIdMap.get? dep) dep)
  { task with
    goalId := resolvedGoalId
    milestoneId := resolvedMilestoneId
    milestoneIndex := milestoneIndex
    dependencies := resolvedDependencies }

/-- `normalizeTaskBreakdownIds(breakdown, goalPlan, goalIdMap)` with the id
generator made explicit. `goalPlan` is the already-normalized plan, as at
the call site in the orchestrator. -/
def normalizeTaskBreakdownIds (f : Nat → String) (c : Nat) (breakdown : TaskBreakdown)
    (goalPlan : GoalPlan) (goalIdMap : SMap) : TaskBreakdown :=
  let (tasksWithNewIds, taskIdMap) := buildTasksWithNewIds f c 0 JsMap.empty breakdown.tasks
  let normalizedTasks := tasksWithNewIds.map (resolveTask goalPlan goalIdMap taskIdMap)
  let normalizedDependencyGraph :=
    breakdown.dependencyGraph.entries.foldl
      (fun (g : JsMap (List String)) p =>
        g.set (jsOrStr (taskIdMap.get? p.1) p.1)
          (p.2.map (fun d => jsOrStr (taskIdMap.get? d) d)))
      JsMap.empty
  let normalizedCriticalPath :=
    breakdown.criticalPath.map (fun i => jsOrStr (taskIdMap.get? i) i)
  { tasks := normalizedTasks
    dependencyGraph := normalizedDependencyGraph
    criticalPath := normalizedCriticalPath
    totalEffortMinutes := breakdown.totalEffortMinutes }

/-! ### `GoalPlannerAgent.processOutput`
(`goal-planner.agent.ts`). The worker output reaches `processOutput`
without schema validation when it comes from a partial stream value, so
every field may be absent; absence is modelled with `Option`. The
wall-clock-dependent fallback due-date computation (today's date, spacing
from `targetDate`) is abstracted as an explicit argument `fallbackDue`
taking the goal's `targetDate`, the milestone index and the milestone
count. -/

/-- A milestone as it appears in raw `GoalPlanOutput` (dueDate may be
missing). -/
structure MilestoneOut where
  id : String
  name : String
  dueDate : Option String
  order : Nat
deriving Repr, DecidableEq

/-- A goal as it appears in raw `GoalPlanOutput`. -/
structure PlannedGoalOut where
  id : String
  title : String
  targetDate : Option String
  milestones : Option (List MilestoneOut)
  successMetrics : Option (List String)
deriving Repr, DecidableEq

/-- Raw `GoalPlanOutput` payload (possibly a partial value). -/
structure GoalPlanOutput where
  goals : Option (List PlannedGoalOut)
  priorityRanking : Option (List String)
  conflicts : Option (List GoalConflict)
deriving Repr, DecidableEq

/-- The plan shape `processOutput` returns (structurally, the raw goal
objects with patched due dates). -/
structure GoalPlanRaw where
  goals : List PlannedGoalOut
  priorityRanking : List String
  conflicts : List GoalConflict
deriving Repr, DecidableEq

/-- The in-place due-date patching loop of `processOutput`: every milestone
without a `dueDate` gets `fallbackDue targetDate idx count`. Goals whose
`milestones` field is absent are skipped (`if (!goal?.milestones) return`). -/
def patchDueDates (fallbackDue : Option String → Nat → Nat → String)
    (goals : List PlannedGoalOut) : List PlannedGoalOut :=
  goals.map (fun g =>
    match g.milestones with
    | none => g
    | some ms =>
      let count := ms.length
      { g with milestones := some (ms.enum.map (fun p =>
          if jsFalsy p.2.dueDate then
            { p.2 with dueDate := some (fallbackDue g.targetDate p.1 count) }
          else p.2)) })

/-- `GoalPlannerAgent.processOutput(output)`: `none` models a
null/undefined payload. Returns the (defensively defaulted) plan and the
checkpoint. -/
def processOutput (fallbackDue : Option String → Nat → Nat → String)
    (output : Option GoalPlanOutput) : GoalPlanRaw × Checkpoint :=
  match output with
  | none =>
    ({ goals := [], priorityRanking := [], conflicts := [] },
      createFailingCheckpoint "goal_planner" ["Output nullo o non definito"])
  | some out =>
    let goals := out.goals.getD []
    let priorityRanking := out.priorityRanking.getD []
    let conflicts := out.conflicts.getD []
    let hasGoals := decide (0 < goals.length)
    let allHaveMilestones := goals.all (fun g => 2 ≤ (g.milestones.getD []).length)
    let allHaveMetrics := goals.all (fun g => 0 < (g.successMetrics.getD []).length)
    let patched := patchDueDates fallbackDue goals
    let allMilestonesHaveDueDate :=
      patched.all (fun g => (g.milestones.getD []).all (fun m => !(jsFalsy m.dueDate)))
    let issues :=
      (if hasGoals then [] else ["Nessun goal definito"]) ++
      (if allHaveMilestones then [] else ["Alcuni goal non hanno milestone sufficienti"]) ++
      (if allHaveMetrics then [] else ["Alcuni goal non hanno metriche di successo"]) ++
      (if allMilestonesHaveDueDate then [] else ["Alcune milestone non hanno dueDate"])
    let isValid := hasGoals && allHaveMilestones
    let checkpoint :=
      if isValid then createPassingCheckpoint "goal_planner" issues
      else createFailingCheckpoint "goal_planner" issues
    ({ goals := patched, priorityRanking := priorityRanking, conflicts := conflicts }, checkpoint)

/-! ### Orchestrator (`OneAgendaMeshOrchestrator.orchestrate`)

The generative workers are external and non-deterministic; a run's stage
outcomes are modelled by a `StageEnv` giving, for each stage, either the
stage's `(result, checkpoint)` pair or a transport failure (a rejected
promise, modelled as `Except.error` with the error message). Payloads the
orchestrator never inspects (intent, user snapshot, schedule,
prioritization, optimizer output, QA report) are carried as opaque
strings. -/

/-- One stage's settled outcome (`Promise.allSettled` member):
fulfilled value or rejection reason. -/
abbrev Settled (α : Type) := Except String α

instance {ε α : Type} [DecidableEq ε] [DecidableEq α] : DecidableEq (Except ε α) := fun a b =>
  match a, b with
  | Except.ok x, Except.ok y =>
    decidable_of_iff (x = y) ⟨fun h => by rw [h], fun h => by injection h⟩
  | Except.error x, Except.error y =>
    decidable_of_iff (x = y) ⟨fun h => by rw [h], fun h => by injection h⟩
  | Except.ok _, Except.error _ => isFalse (fun h => Except.noConfusion h)
  | Except.error _, Except.ok _ => isFalse (fun h => Except.noConfusion h)

/-- Stage outcomes for one orchestration run. Stages that consume earlier
results are functions of those results. -/
structure StageEnv where
  intentParser : Except String (String × Checkpoint)
  userContext : Except String (String × Checkpoint)
  goalPlanner : Except String (GoalPlan × Checkpoint)
  taskBreaker : GoalPlan → Except String (TaskBreakdown × Checkpoint)
  scheduler : TaskBreakdown → String → Except String (String × Checkpoint)
  prioritizer : TaskBreakdown → Except String (String × Checkpoint)
  timeOptimizer : String → Except String (String × Checkpoint)
  qaReview : String → GoalPlan → Except String (String × Checkpoint)

/-- `OneAgendaMeshInput` (fields the orchestrator reads). -/
structure InputM where
  userId : String
  rawUserInput : String
  resumeFromStateId : Option String
deriving Repr, DecidableEq

/-- `AgentContext`: the mutable accumulator. -/
structure AgentContextM where
  intent : Option String := none
  userContext : Option String := none
  goalPlan : Option GoalPlan := none
  taskBreakdown : Option TaskBreakdown := none
  schedule : Option String := none
  prioritization : Option String := none
  optimizedSchedule : Option String := none
  qaReport : Option String := none
deriving Repr, DecidableEq

/-- Modelled from the spec: the Resilience Run Record persisted by
`OrchestrationResilience` / `GenerationStateService` (package
`@giulio-leone/lib-ai`, not part of this repository):
`{runId, userId, domain, phaseResults, createdAt}` plus a terminal marker;
a run without the terminal marker is recoverable. `phaseResults` holds one
slot per phase name used by the orchestrator (plus the stored `input`). -/
structure RunRecord where
  id : String
  userId : String
  domain : String
  createdAt : Nat
  terminal : Bool
  inputStored : Option InputM := none
  foundation : Option ((String × Checkpoint) × (String × Checkpoint)) := none
  planningGoals : Option (GoalPlan × Checkpoint) := none
  planningTasks : Option (TaskBreakdown × Checkpoint) := none
  scheduling : Option (Settled (String × Checkpoint) × Settled (String × Checkpoint)) := none
  quality : Option (Settled (String × Checkpoint) × Settled (String × Checkpoint)) := none
deriving Repr, DecidableEq

/-- Insert a run into a list sorted by `createdAt`, newest first. -/
def insertNewestFirst (r : RunRecord) : List RunRecord → List RunRecord
  | [] => [r]
  | x :: xs => if x.createdAt < r.createdAt then r :: x :: xs else x :: insertNewestFirst r xs

/-- Modelled from the spec:
`GenerationStateService.getRecoverableStates(userId, domain)` returns the
recoverable (non-terminal) runs of `(userId, domain)`, most recent first. -/
def getRecoverableStates (store : List RunRecord) (userId domain : String) :
    List RunRecord :=
  (store.filter (fun r => r.userId == userId && r.domain == domain && !r.terminal)).foldr
    insertNewestFirst []

/-- Modelled from the spec:
`OrchestrationResilience.createContext(userId, domain, resumeId?)`: with a
usable `resumeId` naming an existing run, resume that run (rehydrating its
persisted phase results); otherwise start a fresh run record. -/
def createContext (store : List RunRecord) (userId domain : String)
    (resumeId : Option String) : RunRecord :=
  let fresh : RunRecord :=
    { id := "run_new", userId := userId, domain := domain, createdAt := 0, terminal := false }
  if jsFalsy resumeId then fresh
  else
    match resumeId.bind (fun i => store.find? (fun r => r.id == i)) with
    | some r => r
    | none => fresh

/-- Modelled from the spec: `executePhase(ctx, phaseName, fn)`: when the
phase already has a persisted result, return it without invoking `fn`
(so resumed runs skip straight past completed phases); otherwise run `fn`,
persist its result under the phase slot and return it. A transport failure
inside `fn` propagates and persists nothing. `fn` also reports the agents
it started (the `agent_start` events). -/
def executePhase {α : Type} (ctx : RunRecord) (read : RunRecord → Option α)
    (put : RunRecord → α → RunRecord) (fn : Unit → Except String α × List String) :
    Except String α × RunRecord × List String :=
  match read ctx with
  | some v => (Except.ok v, ctx, [])
  | none =>
    match fn () with
    | (Except.ok v, log) => (Except.ok v, put ctx v, log)
    | (Except.error e, log) => (Except.error e, ctx, log)

/-- The state the `orchestrate` body accumulates (its local `context`,
`checkpoints`, the resilience context, the agents started so far, and the
id-generator counter). -/
structure OrchSt where
  context : AgentContextM
  checkpoints : List Checkpoint
  ctx : RunRecord
  invoked : List String
  counter : Nat
deriving Repr, DecidableEq

/-- Phase 1 (parallel foundation): both stages are started; `Promise.all`
surfaces a rejection of either (when both reject, the temporally first one
wins in JS — the model surfaces the IntentParser's). On success both
results enter the context, both checkpoints are recorded, and only the
IntentParser checkpoint is gated. -/
def foundationPhase (env : StageEnv) (st : OrchSt) : Except (String × OrchSt) OrchSt :=
  match executePhase st.ctx (·.foundation) (fun r v => { r with foundation := some v })
      (fun _ =>
        (match env.intentParser, env.userContext with
          | Except.ok ir, Except.ok ur => Except.ok (ir, ur)
          | Except.error e, _ => Except.error e
          | _, Except.error e => Except.error e,
         ["IntentParserAgent", "UserContextAgent"])) with
  | (Except.error e, ctx1, log) =>
    Except.error (e, { st with ctx := ctx1, invoked := st.invoked ++ log })
  | (Except.ok ((iv, icp), (uv, ucp)), ctx1, log) =>
    let st1 :=
      { st with
        ctx := ctx1
        invoked := st.invoked ++ log
        context := { st.context with intent := some iv, userContext := some uv }
        checkpoints := st.checkpoints ++ [icp, ucp] }
    match assertCheckpoint icp with
    | Except.error e => Except.error (e, st1)
    | Except.ok _ => Except.ok st1

/-- Phase 2 (sequential planning): GoalPlanner → gate → Pass-1
reconciliation → TaskBreaker (on the normalized plan) → gate → Pass-2
reconciliation. -/
def planningPhase (env : StageEnv) (f : Nat → String) (st : OrchSt) :
    Except (String × OrchSt) OrchSt :=
  match executePhase st.ctx (·.planningGoals) (fun r v => { r with planningGoals := some v })
      (fun _ => (env.goalPlanner, ["GoalPlannerAgent"])) with
  | (Except.error e, ctx1, log) =>
    Except.error (e, { st with ctx := ctx1, invoked := st.invoked ++ log })
  | (Except.ok (gplan, gcp), ctx1, log) =>
    let st1 :=
      { st with
        ctx := ctx1
        invoked := st.invoked ++ log
        checkpoints := st.checkpoints ++ [gcp] }
    match assertCheckpoint gcp with
    | Except.error e => Except.error (e, st1)
    | Except.ok _ =>
      let nr := normalizeGoalPlanIds f st1.counter gplan
      let st2 :=
        { st1 with
          context := { st1.context with goalPlan := some nr.normalizedPlan }
          counter := nr.nextCounter }
      match executePhase st2.ctx (·.planningTasks) (fun r v => { r with planningTasks := some v })
          (fun _ => (env.taskBreaker nr.normalizedPlan, ["TaskBreakerAgent"])) with
      | (Except.error e, ctx2, log2) =>
        Except.error (e, { st2 with ctx := ctx2, invoked := st2.invoked ++ log2 })
      | (Except.ok (tb, tcp), ctx2, log2) =>
        let st3 :=
          { st2 with
            ctx := ctx2
            invoked := st2.invoked ++ log2
            checkpoints := st2.checkpoints ++ [tcp] }
        match assertCheckpoint tcp with
        | Except.error e => Except.error (e, st3)
        | Except.ok _ =>
          let ntb := normalizeTaskBreakdownIds f st3.counter tb nr.normalizedPlan nr.goalIdMap
          Except.ok
            { st3 with
              context := { st3.context with taskBreakdown := some ntb }
              counter := st3.counter + tb.tasks.length }

/-- Phase 3 (parallel scheduling): `Promise.allSettled` of Scheduler and
Prioritizer; only after both settle, a rejection of the Scheduler is
rethrown first, then a rejection of the Prioritizer; only when both
fulfilled do their checkpoints get recorded. -/
def schedulingPhase (env : StageEnv) (st : OrchSt) : Except (String × OrchSt) OrchSt :=
  let tb := st.context.taskBreakdown.getD ⟨[], JsMap.empty, [], 0⟩
  let uv := st.context.userContext.getD ""
  match executePhase st.ctx (·.scheduling) (fun r v => { r with scheduling := some v })
      (fun _ =>
        (Except.ok (env.scheduler tb uv, env.prioritizer tb),
         ["SchedulerAgent", "PrioritizerAgent"])) with
  | (Except.error e, ctx1, log) =>
    Except.error (e, { st with ctx := ctx1, invoked := st.invoked ++ log })
  | (Except.ok (ss, ps), ctx1, log) =>
    let st1 := { st with ctx := ctx1, invoked := st.invoked ++ log }
    match ss with
    | Except.error reason => Except.error (reason, st1)
    | Except.ok (sv, scp) =>
      match ps with
      | Except.error reason => Except.error (reason, st1)
      | Except.ok (pv, pcp) =>
        Except.ok
          { st1 with
            context := { st1.context with schedule := some sv, prioritization := some pv }
            checkpoints := st1.checkpoints ++ [scp, pcp] }

/-- Phase 4 (parallel quality): same independent-failure join as the
scheduling phase, over TimeOptimizer and QAReview. -/
def qualityPhase (env : StageEnv) (st : OrchSt) : Except (String × OrchSt) OrchSt :=
  let sch := st.context.schedule.getD ""
  let gp := st.context.goalPlan.getD ⟨[], [], []⟩
  match executePhase st.ctx (·.quality) (fun r v => { r with quality := some v })
      (fun _ =>
        (Except.ok (env.timeOptimizer sch, env.qaReview sch gp),
         ["TimeOptimizerAgent", "QAReviewAgent"])) with
  | (Except.error e, ctx1, log) =>
    Except.error (e, { st with ctx := ctx1, invoked := st.invoked ++ log })
  | (Except.ok (os, qs), ctx1, log) =>
    let st1 := { st with ctx := ctx1, invoked := st.invoked ++ log }
    match os with
    | Except.error reason => Except.error (reason, st1)
    | Except.ok (ov, ocp) =>
      match qs with
      | Except.error reason => Except.error (reason, st1)
      | Except.ok (qv, qcp) =>
        Except.ok
          { st1 with
            context := { st1.context with optimizedSchedule := some ov, qaReport := some qv }
            checkpoints := st1.checkpoints ++ [ocp, qcp] }

/-- The final plan assembled by `buildFinalPlan`. -/
structure OneAgendaPlanM where
  id : String
  title : String
  userId : String
  goals : List PlannedGoal
  tasks : List PlannedTask
  schedule : String
deriving Repr, DecidableEq

/-- `buildFinalPlan(context, userId)`: id freshly generated, title from the
first goal (`|| 'Nuovo Progetto'`), schedule preferring the optimized one. -/
def buildFinalPlan (f : Nat → String) (c : Nat) (context : AgentContextM)
    (userId : String) : OneAgendaPlanM :=
  let goalPlan := context.goalPlan.getD ⟨[], [], []⟩
  let taskBreakdown := context.taskBreakdown.getD ⟨[], JsMap.empty, [], 0⟩
  { id := f c
    title := jsOrStr (goalPlan.goals.head?.map (·.title)) "Nuovo Progetto"
    userId := userId
    goals := goalPlan.goals
    tasks := taskBreakdown.tasks
    schedule := jsOrStr context.optimizedSchedule (context.schedule.getD "") }

/-- `OrchestrationResult`. -/
structure OrchestrationResultM where
  success : Bool
  plan : Option OneAgendaPlanM
  context : AgentContextM
  checkpoints : List Checkpoint
  errors : List String
deriving Repr, DecidableEq

/-- What one `orchestrate` call produced: its returned result, the final
resilience record, the agents started (in `agent_start` order), and the
resume target passed to `createContext`. -/
structure OrchOutcome where
  result : OrchestrationResultM
  ctx : RunRecord
  invoked : List String
  resumeTarget : Option String
deriving Repr, DecidableEq

/-- `orchestrate(input)` over stage outcomes `env`, id supply `f` starting
at counter `c`, against the persisted `store`. Automatic resumption: with
no (or a falsy) `resumeFromStateId`, the most recent recoverable run for
`(userId, 'oneagenda')` becomes the resume target. The `try`/`catch`
around the phase chain returns, on any thrown error, a failure result
carrying the context and checkpoints accumulated so far. -/
def orchestrate (env : StageEnv) (f : Nat → String) (c : Nat)
    (store : List RunRecord) (input : InputM) : OrchOutcome :=
  let targetStateId : Option String :=
    if jsFalsy input.resumeFromStateId then
      match (getRecoverableStates store input.userId "oneagenda").head? with
      | some r => some r.id
      | none => input.resumeFromStateId
    else input.resumeFromStateId
  let ctx0 := createContext store input.userId "oneagenda" targetStateId
  let st0 : OrchSt :=
    { context := {}
      checkpoints := []
      ctx := { ctx0 with inputStored := some input }
      invoked := []
      counter := c }
  match (foundationPhase env st0).bind (planningPhase env f) |>.bind (schedulingPhase env)
      |>.bind (qualityPhase env) with
  | Except.error (e, st) =>
    { result :=
        { success := false
          plan := none
          context := st.context
          checkpoints := st.checkpoints
          errors := [e] }
      ctx := st.ctx
      invoked := st.invoked
      resumeTarget := targetStateId }
  | Except.ok st =>
    let plan := buildFinalPlan f st.counter st.context input.userId
    { result :=
        { success := true
          plan := some plan
          context := st.context
          checkpoints := st.checkpoints
          errors := [] }
      ctx := { st.ctx with terminal := true }
      invoked := st.invoked
      resumeTarget := targetStateId }

/-- The milestone-resolution chain of `resolveTask`, abstracted over the
single goal it reads: index `G`'s own milestone list at `mi - 1`, fall back
to `G`'s first milestone, then to the `milestone_default` sentinel. -/
def resolveMilestoneFor (G : PlannedGoal) (mi : Nat) : String :=
  jsOrStr ((G.milestones.get? (mi - 1)).map (·.id))
    (jsOrStr (G.milestones.head?.map (·.id)) "milestone_default")

/-- The task-id map built by the first pass of
`normalizeTaskBreakdownIds`. -/
def taskIdMapOf (f : Nat → String) (c : Nat) (bd : TaskBreakdown) : SMap :=
  (buildTasksWithNewIds f c 0 JsMap.empty bd.tasks).2

/-- The alias rewrite `map.get(x) || x`: resolve through the map, defaulting
to the alias itself when unresolved. -/
def rewriteAlias (m : SMap) (s : String) : String :=
  jsOrStr (m.get? s) s

/-! ### Reconciliation-engine run and stable-id relabelings (for the
idempotence/isomorphism property). -/

/-- One full Reconciliation Engine run as the orchestrator performs it:
Pass 1 on the goal plan, then Pass 2 on the task breakdown against the
normalized plan and goal-id map. -/
def engineRun (f : Nat → String) (c : Nat) (plan : GoalPlan) (bd : TaskBreakdown) :
    GoalPlan × TaskBreakdown :=
  let nr := normalizeGoalPlanIds f c plan
  (nr.normalizedPlan,
   normalizeTaskBreakdownIds f nr.nextCounter bd nr.normalizedPlan nr.goalIdMap)

/-- Apply a relabeling to the id fields of a milestone. -/
def mapMilestoneIds (ρ : String → String) (m : Milestone) : Milestone :=
  { m with id := ρ m.id }

/-- Apply a relabeling to the id fields of a goal. -/
def mapGoalIds (ρ : String → String) (g : PlannedGoal) : PlannedGoal :=
  { g with id := ρ g.id, milestones := g.milestones.map (mapMilestoneIds ρ) }

/-- Apply a relabeling to the id fields of a goal plan. -/
def mapGoalPlanIds (ρ : String → String) (p : GoalPlan) : GoalPlan :=
  { p with goals := p.goals.map (mapGoalIds ρ), priorityRanking := p.priorityRanking.map ρ }

/-- Apply a relabeling to the id fields of a task. -/
def mapTaskIds (ρ : String → String) (t : PlannedTask) : PlannedTask :=
  { t with
    id := ρ t.id
    goalId := ρ t.goalId
    milestoneId := ρ t.milestoneId
    dependencies := t.dependencies.map ρ }

/-- Apply a relabeling to the id fields of a task breakdown (graph keys,
graph adjacency lists and the critical path included). -/
def mapBreakdownIds (ρ : String → String) (bd : TaskBreakdown) : TaskBreakdown :=
  { bd with
    tasks := bd.tasks.map (mapTaskIds ρ)
    dependencyGraph := ⟨bd.dependencyGraph.entries.map (fun p => (ρ p.1, p.2.map ρ))⟩
    criticalPath := bd.criticalPath.map ρ }

/-- Every string of the raw engine input that the engine may compare a
generated id against or leave in place in its output, together with the
empty string (JS falsiness) and the `milestone_default` sentinel. An id
supply avoiding these is "fresh" for the input. -/
def inputStrings (plan : GoalPlan) (bd : TaskBreakdown) : List String :=
  "" :: "milestone_default" ::
    (plan.goals.flatMap (fun g => g.id :: g.milestones.map (·.id)) ++
     plan.priorityRanking ++
     bd.tasks.flatMap (fun t => t.id :: t.goalId :: t.dependencies) ++
     bd.dependencyGraph.entries.flatMap (fun p => p.1 :: p.2) ++
     bd.criticalPath)

/-- An id supply that never collides with the given raw engine input. -/
def FreshSeq (f : Nat → String) (plan : GoalPlan) (bd : TaskBreakdown) : Prop :=
  ∀ k, f k ∉ inputStrings plan bd

/-! ### Concrete instances used by counterexamples and witnesses. -/

/-- A decimal id supply for concrete computations. -/
def genS : Nat → String := fun n => "S" ++ toString n

/-- An injective id supply with provably fresh, all-`a` ids. -/
def genA : Nat → String := fun n => String.mk (List.replicate (n + 1) 'a')

/-- An injective id supply with provably fresh, all-`b` ids. -/
def genB : Nat → String := fun n => String.mk (List.replicate (n + 1) 'b')

/-- The degraded-confidence checkpoint (`isValid=false, canContinue=true`)
the data model permits. -/
def cpDegraded : Checkpoint :=
  { phase := "p", isValid := false, criticalIssues := ["issue"], warnings := [], canContinue := true }

/-- Concrete scenario of §8: one goal, two milestones. -/
def c4Goal : PlannedGoal :=
  { id := "goal_abc"
    title := "G"
    milestones :=
      [{ id := "milestone_1", name := "M1", dueDate := "d10", order := 1 },
       { id := "milestone_2", name := "M2", dueDate := "d30", order := 2 }]
    successMetrics := ["m"] }

/-- Concrete scenario of §8: the goal plan. -/
def c4Plan : GoalPlan :=
  { goals := [c4Goal], priorityRanking := ["goal_abc"], conflicts := [] }

/-- Concrete scenario of §8: three tasks with `milestoneIndex` values
`[1,1,2]`, task 3 depending on task 1 by ephemeral id. -/
def c4Breakdown : TaskBreakdown :=
  { tasks :=
      [{ id := "task_a", title := "T1", milestoneIndex := 1, milestoneId := "", goalId := "goal_abc", dependencies := [] },
       { id := "task_b", title := "T2", milestoneIndex := 1, milestoneId := "", goalId := "goal_abc", dependencies := [] },
       { id := "task_c", title := "T3", milestoneIndex := 2, milestoneId := "", goalId := "goal_abc", dependencies := ["task_a"] }]
    dependencyGraph := ⟨[]⟩
    criticalPath := []
    totalEffortMinutes := 0 }

/-- A task used to instantiate the goal-scoped resolution property. -/
def c4WitnessTask : PlannedTask :=
  { id := "t", title := "T", milestoneIndex := 2, milestoneId := "", goalId := "goal_abc",
    dependencies := [] }

/-- Two-goal plan where the second goal's milestone carries the ephemeral
id `milestone_1` — the bare positional key the first goal already
claimed. -/
def c5Plan : GoalPlan :=
  { goals :=
      [{ id := "gA", title := "A", milestones := [{ id := "mA1", name := "a1", dueDate := "d", order := 1 }], successMetrics := [] },
       { id := "gB", title := "B", milestones := [{ id := "milestone_1", name := "b1", dueDate := "d", order := 1 }], successMetrics := [] }]
    priorityRanking := []
    conflicts := [] }

/-- Two-goal plan with no ephemeral id of bare positional shape
(for the amended first-goal-wins instance). -/
def c5PlanClean : GoalPlan :=
  { goals :=
      [{ id := "gA", title := "A", milestones := [{ id := "mA1", name := "a1", dueDate := "d", order := 1 }], successMetrics := [] },
       { id := "gB", title := "B", milestones := [{ id := "mB1", name := "b1", dueDate := "d", order := 1 }], successMetrics := [] }]
    priorityRanking := []
    conflicts := [] }

/-- The second goal of `c5PlanClean` on its own (for the preservation
witness). -/
def c5TailGoal : PlannedGoal :=
  { id := "gB", title := "B", milestones := [{ id := "mB1", name := "b1", dueDate := "d", order := 1 }], successMetrics := [] }

/-- A one-entry milestone map in which the bare key is already claimed. -/
def c5SeedMap : SMap := ⟨[("milestone_1", "S1")]⟩

/-- Breakdown with one task, a two-key dependency graph whose rewritten
keys stay distinct, and a critical path with one resolvable and one
dangling alias. -/
def c6WitnessBreakdown : TaskBreakdown :=
  { tasks := [{ id := "t1", title := "T", milestoneIndex := 1, milestoneId := "", goalId := "g", dependencies := ["task_1", "w"] }]
    dependencyGraph := ⟨[("t1", ["task_1", "x"]), ("y", [])]⟩
    criticalPath := ["t1", "z"]
    totalEffortMinutes := 0 }

/-- Breakdown whose dependency graph has two keys (the task's ephemeral id
and its positional alias) that resolve to the same stable id. -/
def c6Breakdown : TaskBreakdown :=
  { tasks := [{ id := "t1", title := "T", milestoneIndex := 1, milestoneId := "", goalId := "g", dependencies := [] }]
    dependencyGraph := ⟨[("t1", []), ("task_1", ["t1"])]⟩
    criticalPath := []
    totalEffortMinutes := 0 }

/-- An empty goal plan (the task pass tolerates it). -/
def emptyPlan : GoalPlan := { goals := [], priorityRanking := [], conflicts := [] }

/-- A structurally valid but goal-less GoalPlanner payload that still
carries a non-empty priority ranking. -/
def c7Output : GoalPlanOutput :=
  { goals := some [], priorityRanking := some ["goal_1"], conflicts := some [] }

/-- A concrete due-date fallback (the claims under test never reach it). -/
def c7Fallback : Option String → Nat → Nat → String := fun _ _ _ => "2025-01-01"

/-- Passing checkpoints for the staged environment. -/
def cpIntent : Checkpoint := createPassingCheckpoint "intent_parser" []

/-- Passing user-context checkpoint. -/
def cpUser : Checkpoint := createPassingCheckpoint "user_context" []

/-- Passing goal-planner checkpoint. -/
def cpGoal : Checkpoint := createPassingCheckpoint "goal_planner" []

/-- Passing task-breaker checkpoint. -/
def cpTask : Checkpoint := createPassingCheckpoint "task_breaker" []

/-- Passing scheduler checkpoint. -/
def cpSched : Checkpoint := createPassingCheckpoint "scheduler" []

/-- Passing prioritizer checkpoint. -/
def cpPrio : Checkpoint := createPassingCheckpoint "prioritizer" []

/-- Passing time-optimizer checkpoint. -/
def cpOpt : Checkpoint := createPassingCheckpoint "time_optimizer" []

/-- Passing QA checkpoint. -/
def cpQa : Checkpoint := createPassingCheckpoint "qa_review" []

/-- A one-goal plan produced by the GoalPlanner stage. -/
def envPlan : GoalPlan :=
  { goals := [{ id := "g1", title := "G", milestones := [{ id := "m1", name := "M", dueDate := "d", order := 1 }], successMetrics := ["x"] }]
    priorityRanking := ["g1"]
    conflicts := [] }

/-- A one-task breakdown produced by the TaskBreaker stage. -/
def envBreakdown : TaskBreakdown :=
  { tasks := [{ id := "t1", title := "T", milestoneIndex := 1, milestoneId := "", goalId := "g1", dependencies := [] }]
    dependencyGraph := ⟨[]⟩
    criticalPath := []
    totalEffortMinutes := 10 }

/-- A run in which every stage succeeds with a passing checkpoint. -/
def baseEnv : StageEnv :=
  { intentParser := Except.ok ("intent", cpIntent)
    userContext := Except.ok ("uctx", cpUser)
    goalPlanner := Except.ok (envPlan, cpGoal)
    taskBreaker := fun _ => Except.ok (envBreakdown, cpTask)
    scheduler := fun _ _ => Except.ok ("sched", cpSched)
    prioritizer := fun _ => Except.ok ("prio", cpPrio)
    timeOptimizer := fun _ => Except.ok ("opt", cpOpt)
    qaReview := fun _ _ => Except.ok ("qa", cpQa) }

/-- `baseEnv` with a transport failure in the Scheduler stage. -/
def envSchedFail : StageEnv :=
  { baseEnv with scheduler := fun _ _ => Except.error "Scheduler exploded" }

/-- `baseEnv` with a User-Context checkpoint that forbids continuing. -/
def envUserCtxBad : StageEnv :=
  { baseEnv with userContext := Except.ok ("uctx", createFailingCheckpoint "user_context" ["no ctx"]) }

/-- `baseEnv` with an Intent checkpoint that forbids continuing. -/
def envIntentBad : StageEnv :=
  { baseEnv with intentParser := Except.ok ("intent", createFailingCheckpoint "intent_parser" ["bad"]) }

/-- A fresh-run input (no resume id). -/
def input0 : InputM := { userId := "u1", rawUserInput := "hello", resumeFromStateId := none }

/-- A recoverable run persisted through Foundation and Planning. -/
def runMid : RunRecord :=
  { id := "runA"
    userId := "u1"
    domain := "oneagenda"
    createdAt := 5
    terminal := false
    foundation := some (("intent", cpIntent), ("uctx", cpUser))
    planningGoals := some (envPlan, cpGoal)
    planningTasks := some (envBreakdown, cpTask) }

/-- An older recoverable run with nothing persisted. -/
def runOld : RunRecord :=
  { id := "runB", userId := "u1", domain := "oneagenda", createdAt := 3, terminal := false }

/-- A newer but already-terminal run. -/
def runDone : RunRecord :=
  { id := "runC", userId := "u1", domain := "oneagenda", createdAt := 9, terminal := true }

/-! ## Theorems -/

/-! ### Map lemmas -/

theorem JsMap.get?_set {α : Type} (m : JsMap α) (k K : String) (v : α) :
    (m.set k v).get? K = if k = K then some v else m.get? K := by
  rcases m with ⟨l⟩
  simp only [JsMap.set, JsMap.get?]
  induction l with
  | nil =>
    by_cases h : k = K <;> simp [JsMap.setEntries, h]
  | cons p t ih =>
    by_cases h1 : p.1 = k
    · have hs : JsMap.setEntries k v (p :: t) = (k, v) :: t := by simp [JsMap.setEntries, h1]
      by_cases h2 : k = K
      · subst h2; simp [hs, List.find?_cons_of_pos, h1]
      · have hpK : ¬(p.1 = K) := fun hh => h2 (h1.symm.trans hh)
        rw [hs, if_neg h2]
        rw [List.find?_cons_of_neg _ (by simpa using h2),
          List.find?_cons_of_neg _ (by simpa using hpK)]
    · have hs : JsMap.setEntries k v (p :: t) = p :: JsMap.setEntries k v t := by
        simp [JsMap.setEntries, h1]
      by_cases h2 : p.1 = K
      · have hkK : ¬(k = K) := fun hh => h1 (by rw [hh, h2])
        rw [hs, if_neg hkK]
        rw [List.find?_cons_of_pos _ (by simpa using h2),
          List.find?_cons_of_pos _ (by simpa using h2)]
      · rw [hs]
        rw [List.find?_cons_of_neg _ (by simpa using h2),
          List.find?_cons_of_neg _ (by simpa using h2)]
        exact ih

theorem JsMap.contains_eq_isSome {α : Type} (m : JsMap α) (k : String) :
    m.contains k = (m.get? k).isSome := by
  rcases m with ⟨l⟩
  simp only [JsMap.contains, JsMap.get?]
  induction l with
  | nil => rfl
  | cons p t ih =>
    by_cases h : p.1 = k <;> simp [h, ih]

theorem JsMap.set_of_get?_none {α : Type} (m : JsMap α) (k : String) (v : α)
    (h : m.get? k = none) : (m.set k v).entries = m.entries ++ [(k, v)] := by
  rcases m with ⟨l⟩
  simp only [JsMap.set, JsMap.get?] at *
  induction l with
  | nil => rfl
  | cons p t ih =>
    by_cases h1 : p.1 = k
    · rw [List.find?_cons_of_pos _ (by simpa using h1)] at h
      simp at h
    · have h2 : Option.map (fun x => x.2) (List.find? (fun q => q.1 == k) t) = none := by
        rwa [List.find?_cons_of_neg _ (by simpa using h1)] at h
      simp [JsMap.setEntries, h1, ih h2]

/-- C1 counterexample: `cpDegraded` has `canContinue = true`, yet
`assertCheckpoint` raises — the gate also tests `isValid`, so "raises iff
`canContinue` is false" is wrong and a degraded-confidence checkpoint does
not pass the gate. -/
theorem c1_gate_counterexample :
    cpDegraded.isValid = false ∧ cpDegraded.canContinue = true ∧
    assertCheckpoint cpDegraded = Except.error "Checkpoint \x27p\x27 failed: issue" :=
  ⟨rfl, rfl, rfl⟩

/-- C1 (amended): `assertCheckpoint c` raises a terminating error carrying
the phase name and the joined critical issues iff `c.isValid` is false or
`c.canContinue` is false; in particular `isValid=false, canContinue=true`
raises rather than passing. -/
theorem c1_gate_raises_iff (c : Checkpoint) :
    assertCheckpoint c = Except.error (checkpointFailMsg c) ↔
      (c.isValid = false ∨ c.canContinue = false) := by
  unfold assertCheckpoint
  cases hv : c.isValid <;> cases hc : c.canContinue <;> simp

/-- C10: `createPassingCheckpoint` always builds
`isValid=true, canContinue=true` with empty `criticalIssues`, and
`createFailingCheckpoint` always builds `isValid=false, canContinue=false`
with empty `warnings`; both therefore satisfy `isValid == canContinue` and
never produce the degraded-confidence combination. -/
theorem c10_constructors_couple_isValid_canContinue (phase : String) (ws issues : List String) :
    (createPassingCheckpoint phase ws).isValid = true ∧
    (createPassingCheckpoint phase ws).canContinue = true ∧
    (createPassingCheckpoint phase ws).criticalIssues = [] ∧
    (createFailingCheckpoint phase issues).isValid = false ∧
    (createFailingCheckpoint phase issues).canContinue = false ∧
    (createFailingCheckpoint phase issues).warnings = [] :=
  ⟨rfl, rfl, rfl, rfl, rfl, rfl⟩

/-- C7 counterexample: a zero-goal payload that still carries a non-empty
`priorityRanking` is not defaulted to an all-empty plan — `processOutput`
copies the payload's ranking into the returned plan. -/
theorem c7_zero_goals_counterexample :
    c7Output.goals = some [] ∧
    (processOutput c7Fallback (some c7Output)).1.goals = [] ∧
    (processOutput c7Fallback (some c7Output)).1.priorityRanking = ["goal_1"] ∧
    (processOutput c7Fallback (some c7Output)).2.isValid = false :=
  ⟨rfl, rfl, rfl, rfl⟩

/-- C7 (amended): `processOutput` never raises; a null payload yields the
all-empty defaulted plan with a failing checkpoint naming the problem; a
zero-goal payload yields an empty goal list, `priorityRanking` and
`conflicts` taken from the payload (empty only when absent), and a failing
checkpoint (`isValid=false, canContinue=false`) whose critical issues name
the problem. -/
theorem c7_empty_payload_fails_checkpoint (fb : Option String → Nat → Nat → String)
    (out : GoalPlanOutput) (hng : out.goals.getD [] = []) :
    processOutput fb none =
      ({ goals := [], priorityRanking := [], conflicts := [] },
        createFailingCheckpoint "goal_planner" ["Output nullo o non definito"]) ∧
    (processOutput fb (some out)).1.goals = [] ∧
    (processOutput fb (some out)).1.priorityRanking = out.priorityRanking.getD [] ∧
    (processOutput fb (some out)).1.conflicts = out.conflicts.getD [] ∧
    (processOutput fb (some out)).2 =
      createFailingCheckpoint "goal_planner" ["Nessun goal definito"] := by
  refine ⟨rfl, ?_, ?_, ?_, ?_⟩ <;>
    simp [processOutput, hng, patchDueDates]

/-- C7 witness: the amended statement at the concrete zero-goal payload. -/
theorem c7_empty_payload_fails_checkpoint_witness :
    c7Output.goals.getD [] = [] ∧
    (processOutput c7Fallback (some c7Output)).2 =
      createFailingCheckpoint "goal_planner" ["Nessun goal definito"] :=
  ⟨rfl, (c7_empty_payload_fails_checkpoint c7Fallback c7Output rfl).2.2.2.2⟩

/-- C4: milestone resolution is goal-scoped — whenever a reconciled task's
`goalId` resolves to goal `G` (i.e. `G` is the goal the resolver found),
its `milestoneId` is produced from `G`'s own milestone list at
`milestoneIndex - 1`, falling back to `G`'s first milestone, then to the
`milestone_default` sentinel, so `milestoneIndex = 1` for goal A can never
yield a milestone of goal B; and in the concrete one-goal scenario with
`milestoneIndex` values `[1,1,2]` and task 3 depending on task 1's
ephemeral id, tasks 1–2 resolve to milestone 1's stable id `S1`, task 3 to
milestone 2's stable id `S2`, and task 3's dependency list carries task
1's stable id `S3`. -/
theorem c4_goal_scoped_milestone_resolution :
    (∀ (plan : GoalPlan) (gMap tMap : SMap) (task : PlannedTask) (G : PlannedGoal),
        plan.goals.find? (fun gl => gl.id == (resolveTask plan gMap tMap task).goalId) = some G →
        (resolveTask plan gMap tMap task).milestoneId =
          resolveMilestoneFor G ((resolveTask plan gMap tMap task).milestoneIndex)) ∧
    ((normalizeGoalPlanIds genS 0 c4Plan).normalizedPlan.goals.map
        (fun gl => gl.milestones.map (·.id)) = [["S1", "S2"]] ∧
      (normalizeTaskBreakdownIds genS (normalizeGoalPlanIds genS 0 c4Plan).nextCounter
          c4Breakdown (normalizeGoalPlanIds genS 0 c4Plan).normalizedPlan
          (normalizeGoalPlanIds genS 0 c4Plan).goalIdMap).tasks.map
        (fun t => (t.id, t.milestoneId, t.dependencies)) =
        [("S3", "S1", []), ("S4", "S1", []), ("S5", "S2", ["S3"])]) := by
  constructor
  · intro plan gMap tMap task G h
    simp only [resolveTask] at h ⊢
    rw [h]
    rfl
  · exact ⟨by decide, by decide⟩

/-- C4 witness: the goal-scoped resolution property applied at the
concrete scenario plan and a concrete task. -/
theorem c4_goal_scoped_milestone_resolution_witness :
    c4Plan.goals.find?
        (fun gl => gl.id == (resolveTask c4Plan JsMap.empty JsMap.empty c4WitnessTask).goalId) =
      some c4Goal ∧
    (resolveTask c4Plan JsMap.empty JsMap.empty c4WitnessTask).milestoneId =
      resolveMilestoneFor c4Goal
        ((resolveTask c4Plan JsMap.empty JsMap.empty c4WitnessTask).milestoneIndex) :=
  ⟨by decide,
    c4_goal_scoped_milestone_resolution.1 c4Plan JsMap.empty JsMap.empty c4WitnessTask c4Goal
      (by decide)⟩

/-! ### Bare-positional-key lemmas (Pass 1) -/

theorem colon_mem_composite (a b : String) : ':' ∈ (a ++ ":" ++ b).data := by
  have h : (a ++ ":" ++ b).data = a.data ++ [':'] ++ b.data := rfl
  rw [h]; simp

theorem JsMap.get?_guardedSet {m : SMap} {K : String} {v : String} (sk w : String)
    (h : m.get? K = some v) :
    (if m.contains sk then m else m.set sk w).get? K = some v := by
  by_cases hsk : sk = K
  · subst hsk
    rw [if_pos]
    · exact h
    · rw [JsMap.contains_eq_isSome, h]; rfl
  · split
    · exact h
    · rw [JsMap.get?_set, if_neg hsk]; exact h

theorem registerMilestoneKeys_get?_preserved (oldGoalId : String) (goalIdx : Nat)
    (oldMilestoneId : String) (msIdx : Nat) (newId : String) (m : SMap) (K v : String)
    (hColon : ':' ∉ K.data) (hOwn : ¬(oldMilestoneId = K)) (hv : m.get? K = some v) :
    (registerMilestoneKeys oldGoalId goalIdx oldMilestoneId msIdx newId m).get? K = some v := by
  have hcomp : ∀ a b : String, ¬(a ++ ":" ++ b = K) := fun a b h =>
    hColon (h ▸ colon_mem_composite a b)
  simp only [registerMilestoneKeys, List.foldl]
  apply JsMap.get?_guardedSet
  apply JsMap.get?_guardedSet
  apply JsMap.get?_guardedSet
  repeat rw [JsMap.get?_set, if_neg (hcomp _ _)]
  rw [JsMap.get?_set, if_neg hOwn]
  exact hv

theorem normMilestones_get?_preserved (f : Nat → String) (gid : String) (gidx : Nat)
    (K v : String) (hColon : ':' ∉ K.data) :
    ∀ (ms : List Milestone) (c msIdx : Nat) (m : SMap),
      (∀ mi ∈ ms, ¬(mi.id = K)) → m.get? K = some v →
      ((normMilestones f gid gidx c msIdx m ms).2.1).get? K = some v := by
  intro ms
  induction ms with
  | nil => intro c msIdx m _ hv; exact hv
  | cons a t ih =>
    intro c msIdx m hIds hv
    simp only [normMilestones]
    exact ih (c + 1) (msIdx + 1) _ (fun mi hmi => hIds mi (List.mem_cons_of_mem a hmi))
      (registerMilestoneKeys_get?_preserved gid gidx a.id msIdx (f c) m K v hColon
        (hIds a (List.mem_cons_self a t)) hv)

theorem normGoals_get?_preserved (f : Nat → String) (K v : String)
    (hColon : ':' ∉ K.data) :
    ∀ (gs : List PlannedGoal) (c gi : Nat) (gMap mMap : SMap),
      (∀ g ∈ gs, ∀ mi ∈ g.milestones, ¬(mi.id = K)) → mMap.get? K = some v →
      ((normGoals f c gi gMap mMap gs).2.2.1).get? K = some v := by
  intro gs
  induction gs with
  | nil => intro c gi gMap mMap _ hv; exact hv
  | cons g t ih =>
    intro c gi gMap mMap hIds hv
    simp only [normGoals]
    exact ih _ (gi + 1) _ _ (fun g2 hg2 => hIds g2 (List.mem_cons_of_mem g hg2))
      (normMilestones_get?_preserved f g.id gi K v hColon g.milestones (c + 1) 0 mMap
        (hIds g (List.mem_cons_self g t)) hv)

/-- C5 counterexample: in `c5Plan` the second goal's milestone carries the
ephemeral id `milestone_1`; its *unconditional* ephemeral-id registration
overwrites the bare positional key the first goal had already claimed, so
after Pass 1 `milestone_1` maps to the second goal's stable id `S3`
instead of the first goal's first-milestone id `S1`. -/
theorem c5_bare_key_counterexample :
    (normalizeGoalPlanIds genS 0 c5Plan).milestoneIdMap.get? "milestone_1" = some "S3" ∧
    (normalizeGoalPlanIds genS 0 c5Plan).normalizedPlan.goals.map
      (fun gl => gl.milestones.map (·.id)) = [["S1"], ["S3"]] := by
  exact ⟨by decide, by decide⟩

/-- C5 (amended): the *positional* bare-key registration is guarded
(first-come-wins): once any colon-free key — every bare positional key is
colon-free — is claimed in `milestoneIdMap`, processing further goals never
changes it, provided no later milestone's ephemeral id equals that key
(the unconditional ephemeral-id registration otherwise overwrites it, as
the counterexample shows); in particular, in a two-goal plan without such
ephemeral-id collisions the bare key `milestone_1` keeps the first goal's
first-milestone stable id. -/
theorem c5_bare_key_first_goal_wins :
    (∀ (f : Nat → String) (K v : String) (gs : List PlannedGoal) (c gi : Nat)
        (gMap mMap : SMap),
        ':' ∉ K.data →
        (∀ g ∈ gs, ∀ mi ∈ g.milestones, ¬(mi.id = K)) →
        mMap.get? K = some v →
        ((normGoals f c gi gMap mMap gs).2.2.1).get? K = some v) ∧
    ((normalizeGoalPlanIds genS 0 c5PlanClean).milestoneIdMap.get? "milestone_1" = some "S1" ∧
      (normalizeGoalPlanIds genS 0 c5PlanClean).normalizedPlan.goals.map
        (fun gl => gl.milestones.map (·.id)) = [["S1"], ["S3"]]) := by
  refine ⟨?_, by decide, by decide⟩
  intro f K v gs c gi gMap mMap hColon hIds hv
  exact normGoals_get?_preserved f K v hColon gs c gi gMap mMap hIds hv

/-- C5 witness: the preservation half applied to the second goal of
`c5PlanClean` with the bare key already claimed. -/
theorem c5_bare_key_first_goal_wins_witness :
    ':' ∉ "milestone_1".data ∧
    c5SeedMap.get? "milestone_1" = some "S1" ∧
    ((normGoals genS 2 1 JsMap.empty c5SeedMap [c5TailGoal]).2.2.1).get? "milestone_1" =
      some "S1" :=
  ⟨by decide, rfl,
    c5_bare_key_first_goal_wins.1 genS "milestone_1" "S1" [c5TailGoal] 2 1 JsMap.empty c5SeedMap
      (by decide) (by decide) rfl⟩

/-! ### Alias-rewrite lemmas (Pass 2) -/

theorem buildTasks_map_dependencies (f : Nat → String) :
    ∀ (ts : List PlannedTask) (c i : Nat) (m : SMap),
      ((buildTasksWithNewIds f c i m ts).1).map (·.dependencies) = ts.map (·.dependencies) := by
  intro ts
  induction ts with
  | nil => intro c i m; rfl
  | cons a t ih =>
    intro c i m
    simp only [buildTasksWithNewIds]
    simpa using ih (c + 1) (i + 1) ((m.set a.id (f c)).set ("task_" ++ toString (i + 1)) (f c))

theorem JsMap.foldl_set_of_fresh {α : Type} :
    ∀ (ps : List (String × α)) (acc : JsMap α),
      (ps.map (·.1)).Nodup → (∀ p ∈ ps, acc.get? p.1 = none) →
      (ps.foldl (fun g p => g.set p.1 p.2) acc).entries = acc.entries ++ ps := by
  intro ps
  induction ps with
  | nil => intro acc _ _; simp
  | cons p t ih =>
    intro acc hnd hfresh
    simp only [List.foldl_cons]
    have hhead : p.1 ∉ t.map (·.1) := (List.nodup_cons.mp (by simpa using hnd)).1
    have hstep : ∀ q ∈ t, (acc.set p.1 p.2).get? q.1 = none := by
      intro q hq
      rw [JsMap.get?_set]
      split
      · exact absurd (List.mem_map_of_mem (·.1) hq) (by simpa [*] using hhead)
      · exact hfresh q (List.mem_cons_of_mem p hq)
    rw [ih (acc.set p.1 p.2) (List.nodup_cons.mp (by simpa using hnd)).2 hstep,
      JsMap.set_of_get?_none acc p.1 p.2 (hfresh p (List.mem_cons_self p t))]
    simp

/-- C6 counterexample: the dependency graph of `c6Breakdown` has two
entries whose keys (`t1` and `task_1`) both resolve to the same stable id
`S0`; after rewriting, the second entry overwrites the first and the graph
has one entry left — a graph entry is dropped. -/
theorem c6_graph_entry_dropped_counterexample :
    c6Breakdown.dependencyGraph.entries.length = 2 ∧
    (normalizeTaskBreakdownIds genS 0 c6Breakdown emptyPlan JsMap.empty).dependencyGraph.entries =
      [("S0", ["S0"])] :=
  ⟨rfl, by decide⟩

/-- C6 (amended): every task's dependency list and the critical path are
rewritten element-wise through `taskIdMap` with each unresolved alias left
unchanged in place, so no dependency or critical-path element is dropped;
the dependency graph is rewritten entry-wise (keys and value lists) and no
entry is dropped *provided* the rewritten keys stay pairwise distinct —
two entries whose keys resolve to the same stable id collapse into one
(the later wins), as the counterexample shows. -/
theorem c6_alias_rewrites (f : Nat → String) (c : Nat) (bd : TaskBreakdown)
    (plan : GoalPlan) (gMap : SMap) :
    ((normalizeTaskBreakdownIds f c bd plan gMap).tasks.map (·.dependencies) =
        bd.tasks.map (fun t => t.dependencies.map (rewriteAlias (taskIdMapOf f c bd)))) ∧
    ((normalizeTaskBreakdownIds f c bd plan gMap).criticalPath =
        bd.criticalPath.map (rewriteAlias (taskIdMapOf f c bd))) ∧
    (∀ d, (taskIdMapOf f c bd).get? d = none → rewriteAlias (taskIdMapOf f c bd) d = d) ∧
    ((bd.dependencyGraph.entries.map (fun p => rewriteAlias (taskIdMapOf f c bd) p.1)).Nodup →
      (normalizeTaskBreakdownIds f c bd plan gMap).dependencyGraph.entries =
        bd.dependencyGraph.entries.map
          (fun p => (rewriteAlias (taskIdMapOf f c bd) p.1,
            p.2.map (rewriteAlias (taskIdMapOf f c bd))))) := by
  refine ⟨?_, rfl, ?_, ?_⟩
  · have h1 : (normalizeTaskBreakdownIds f c bd plan gMap).tasks =
        (buildTasksWithNewIds f c 0 JsMap.empty bd.tasks).1.map
          (resolveTask plan gMap (taskIdMapOf f c bd)) := rfl
    rw [h1, List.map_map]
    have h2 := congrArg (List.map (List.map (rewriteAlias (taskIdMapOf f c bd))))
      (buildTasks_map_dependencies f bd.tasks c 0 JsMap.empty)
    simpa [List.map_map, Function.comp_def] using h2
  · intro d h
    simp [rewriteAlias, h, jsOrStr]
  · intro hnd
    have h1 : (normalizeTaskBreakdownIds f c bd plan gMap).dependencyGraph =
        bd.dependencyGraph.entries.foldl
          (fun g p => g.set (rewriteAlias (taskIdMapOf f c bd) p.1)
            (p.2.map (rewriteAlias (taskIdMapOf f c bd)))) JsMap.empty := rfl
    have h2 : bd.dependencyGraph.entries.foldl
          (fun g p => g.set (rewriteAlias (taskIdMapOf f c bd) p.1)
            (p.2.map (rewriteAlias (taskIdMapOf f c bd)))) JsMap.empty =
        (bd.dependencyGraph.entries.map
            (fun p => (rewriteAlias (taskIdMapOf f c bd) p.1,
              p.2.map (rewriteAlias (taskIdMapOf f c bd))))).foldl
          (fun g q => g.set q.1 q.2) JsMap.empty := by
      rw [List.foldl_map]
    rw [h1, h2, JsMap.foldl_set_of_fresh _ JsMap.empty (by simpa [List.map_map] using hnd)
      (fun q _ => rfl)]
    rfl

/-- C6 witness: the amended statement at a breakdown whose rewritten graph
keys stay distinct. -/
theorem c6_alias_rewrites_witness :
    (c6WitnessBreakdown.dependencyGraph.entries.map
        (fun p => rewriteAlias (taskIdMapOf genS 0 c6WitnessBreakdown) p.1)).Nodup ∧
    (normalizeTaskBreakdownIds genS 0 c6WitnessBreakdown emptyPlan
        JsMap.empty).dependencyGraph.entries =
      c6WitnessBreakdown.dependencyGraph.entries.map
        (fun p => (rewriteAlias (taskIdMapOf genS 0 c6WitnessBreakdown) p.1,
          p.2.map (rewriteAlias (taskIdMapOf genS 0 c6WitnessBreakdown)))) :=
  ⟨by decide,
    (c6_alias_rewrites genS 0 c6WitnessBreakdown emptyPlan JsMap.empty).2.2.2 (by decide)⟩

/-! ### Orchestrator gate and join lemmas -/

theorem assertCheckpoint_ok_of (c : Checkpoint) (h1 : c.isValid = true)
    (h2 : c.canContinue = true) : assertCheckpoint c = Except.ok () := by
  simp [assertCheckpoint, h1, h2]

theorem assertCheckpoint_error_of (c : Checkpoint)
    (h : c.isValid = false ∨ c.canContinue = false) :
    assertCheckpoint c = Except.error (checkpointFailMsg c) := by
  rcases h with h | h <;> simp [assertCheckpoint, h]

/-- C2 counterexample: with the Scheduler transport-failing and the
Prioritizer succeeding (with checkpoint `cpPrio`), the error result's
checkpoint list stops at Planning — the Prioritizer's checkpoint is *not*
in it, because the orchestrator rethrows the Scheduler's rejection before
pushing either Phase-3 checkpoint. -/
theorem c2_sibling_checkpoint_counterexample :
    (orchestrate envSchedFail genS 0 [] input0).result.success = false ∧
    (orchestrate envSchedFail genS 0 [] input0).result.errors = ["Scheduler exploded"] ∧
    (orchestrate envSchedFail genS 0 [] input0).result.checkpoints =
      [cpIntent, cpUser, cpGoal, cpTask] ∧
    cpPrio ∉ (orchestrate envSchedFail genS 0 [] input0).result.checkpoints :=
  ⟨by decide, by decide, by decide, by decide⟩

/-- C2 (amended): when the Scheduler stage transport-fails while the
Prioritizer completes, the run returns `success=false` with the
Scheduler's error, and its checkpoint list contains exactly the
checkpoints collected through Planning — the Prioritizer's checkpoint,
though computed, is not included. -/
theorem c2_scheduler_failure_drops_sibling_checkpoint (env : StageEnv) (f : Nat → String)
    (c : Nat) (uid raw iv uv pv e : String) (icp ucp gcp tcp pcp : Checkpoint)
    (gplan : GoalPlan) (tb : TaskBreakdown)
    (h1 : env.intentParser = Except.ok (iv, icp))
    (h2 : env.userContext = Except.ok (uv, ucp))
    (h3 : assertCheckpoint icp = Except.ok ())
    (h4 : env.goalPlanner = Except.ok (gplan, gcp))
    (h5 : assertCheckpoint gcp = Except.ok ())
    (h6 : env.taskBreaker (normalizeGoalPlanIds f c gplan).normalizedPlan = Except.ok (tb, tcp))
    (h7 : assertCheckpoint tcp = Except.ok ())
    (h8 : env.scheduler (normalizeTaskBreakdownIds f (normalizeGoalPlanIds f c gplan).nextCounter
            tb (normalizeGoalPlanIds f c gplan).normalizedPlan
            (normalizeGoalPlanIds f c gplan).goalIdMap) uv = Except.error e)
    (h9 : env.prioritizer (normalizeTaskBreakdownIds f (normalizeGoalPlanIds f c gplan).nextCounter
            tb (normalizeGoalPlanIds f c gplan).normalizedPlan
            (normalizeGoalPlanIds f c gplan).goalIdMap) = Except.ok (pv, pcp)) :
    (orchestrate env f c [] ⟨uid, raw, none⟩).result.success = false ∧
    (orchestrate env f c [] ⟨uid, raw, none⟩).result.errors = [e] ∧
    (orchestrate env f c [] ⟨uid, raw, none⟩).result.checkpoints = [icp, ucp, gcp, tcp] ∧
    (pcp ∉ ([icp, ucp, gcp, tcp] : List Checkpoint) →
      pcp ∉ (orchestrate env f c [] ⟨uid, raw, none⟩).result.checkpoints) := by
  have hmain : (orchestrate env f c [] ⟨uid, raw, none⟩).result.success = false ∧
      (orchestrate env f c [] ⟨uid, raw, none⟩).result.errors = [e] ∧
      (orchestrate env f c [] ⟨uid, raw, none⟩).result.checkpoints = [icp, ucp, gcp, tcp] := by
    refine ⟨?_, ?_, ?_⟩ <;>
      simp [orchestrate, foundationPhase, planningPhase, schedulingPhase, qualityPhase,
        executePhase, createContext, getRecoverableStates, jsFalsy, Except.bind,
        h1, h2, h3, h4, h5, h6, h7, h8, h9]
  refine ⟨hmain.1, hmain.2.1, hmain.2.2, fun hn => ?_⟩
  rw [hmain.2.2]
  exact hn

/-- C2 witness: the amended statement at the concrete environment with a
failing Scheduler and succeeding Prioritizer. -/
theorem c2_scheduler_failure_drops_sibling_checkpoint_witness :
    envSchedFail.intentParser = Except.ok ("intent", cpIntent) ∧
    (orchestrate envSchedFail genS 0 [] ⟨"u1", "hello", none⟩).result.checkpoints =
      [cpIntent, cpUser, cpGoal, cpTask] :=
  ⟨rfl,
    (c2_scheduler_failure_drops_sibling_checkpoint envSchedFail genS 0 "u1" "hello"
      "intent" "uctx" "prio" "Scheduler exploded" cpIntent cpUser cpGoal cpTask cpPrio
      envPlan envBreakdown rfl rfl (by decide) rfl (by decide) rfl (by decide) rfl rfl).2.2.1⟩

/-- C3 counterexample: the User-Context stage reports
`canContinue=false`, yet the Goal-Planning stage is still invoked and the
run even succeeds — Foundation only gates on the Intent checkpoint, so a
failing User-Context checkpoint does not prevent Planning. -/
theorem c3_user_context_not_gated_counterexample :
    (orchestrate envUserCtxBad genS 0 [] input0).result.checkpoints.get? 1 =
      some (createFailingCheckpoint "user_context" ["no ctx"]) ∧
    (createFailingCheckpoint "user_context" ["no ctx"]).canContinue = false ∧
    "GoalPlannerAgent" ∈ (orchestrate envUserCtxBad genS 0 [] input0).invoked ∧
    (orchestrate envUserCtxBad genS 0 [] input0).result.success = true :=
  ⟨by decide, rfl, by decide, by decide⟩

/-- C3 (amended): only the *Intent* checkpoint is gated in Foundation:
when it carries `canContinue=false` (or `isValid=false`), Planning never
starts (the GoalPlanner worker is not invoked), the run fails with the
gate's error, and the result's checkpoint list is exactly the two
Foundation checkpoints produced before the abort; a failing User-Context
checkpoint, by contrast, does not prevent Planning (see the
counterexample). -/
theorem c3_intent_gate_fail_fast (env : StageEnv) (f : Nat → String) (c : Nat)
    (uid raw iv uv : String) (icp ucp : Checkpoint)
    (h1 : env.intentParser = Except.ok (iv, icp))
    (h2 : env.userContext = Except.ok (uv, ucp))
    (hg : icp.isValid = false ∨ icp.canContinue = false) :
    (orchestrate env f c [] ⟨uid, raw, none⟩).result.success = false ∧
    (orchestrate env f c [] ⟨uid, raw, none⟩).result.checkpoints = [icp, ucp] ∧
    (orchestrate env f c [] ⟨uid, raw, none⟩).result.errors = [checkpointFailMsg icp] ∧
    (orchestrate env f c [] ⟨uid, raw, none⟩).invoked =
      ["IntentParserAgent", "UserContextAgent"] ∧
    "GoalPlannerAgent" ∉ (orchestrate env f c [] ⟨uid, raw, none⟩).invoked := by
  have h3 := assertCheckpoint_error_of icp hg
  have hmain : (orchestrate env f c [] ⟨uid, raw, none⟩).result.success = false ∧
      (orchestrate env f c [] ⟨uid, raw, none⟩).result.checkpoints = [icp, ucp] ∧
      (orchestrate env f c [] ⟨uid, raw, none⟩).result.errors = [checkpointFailMsg icp] ∧
      (orchestrate env f c [] ⟨uid, raw, none⟩).invoked =
        ["IntentParserAgent", "UserContextAgent"] := by
    refine ⟨?_, ?_, ?_, ?_⟩ <;>
      simp [orchestrate, foundationPhase, planningPhase, schedulingPhase, qualityPhase,
        executePhase, createContext, getRecoverableStates, jsFalsy, Except.bind, h1, h2, h3]
  refine ⟨hmain.1, hmain.2.1, hmain.2.2.1, hmain.2.2.2, fun hn => ?_⟩
  rw [hmain.2.2.2] at hn
  simp at hn

/-- C3 witness: the amended statement at the concrete environment whose
Intent checkpoint forbids continuing. -/
theorem c3_intent_gate_fail_fast_witness :
    (createFailingCheckpoint "intent_parser" ["bad"]).canContinue = false ∧
    (orchestrate envIntentBad genS 0 [] ⟨"u1", "hello", none⟩).result.checkpoints =
      [createFailingCheckpoint "intent_parser" ["bad"], cpUser] :=
  ⟨rfl,
    (c3_intent_gate_fail_fast envIntentBad genS 0 "u1" "hello" "intent" "uctx"
      (createFailingCheckpoint "intent_parser" ["bad"]) cpUser rfl rfl
      (Or.inr rfl)).2.1⟩

/-- C9: with no `resumeFromStateId` and a recoverable run available, the
orchestrator resumes the most recent recoverable run of
`(userId, 'oneagenda')` — its id is the resume target handed to
`createContext` — and phases whose results are persisted (here Foundation
and both Planning sub-phases) are skipped without re-invoking their
generative workers: the first workers started are the Scheduling phase's
(`SchedulerAgent`, `PrioritizerAgent`), optionally followed only by the
Quality phase's. -/
theorem c9_auto_resume_skips_completed_phases (env : StageEnv) (f : Nat → String) (c : Nat)
    (store : List RunRecord) (uid raw iv uv : String) (icp ucp gcp tcp : Checkpoint)
    (gplan : GoalPlan) (tb : TaskBreakdown) (r : RunRecord)
    (hr : (getRecoverableStates store uid "oneagenda").head? = some r)
    (hid0 : ¬(r.id = ""))
    (hrid : store.find? (fun x => x.id == r.id) = some r)
    (hf : r.foundation = some ((iv, icp), (uv, ucp)))
    (hpg : r.planningGoals = some (gplan, gcp))
    (hpt : r.planningTasks = some (tb, tcp))
    (hsc : r.scheduling = none)
    (hq : r.quality = none)
    (h3 : assertCheckpoint icp = Except.ok ())
    (h5 : assertCheckpoint gcp = Except.ok ())
    (h7 : assertCheckpoint tcp = Except.ok ()) :
    (orchestrate env f c store ⟨uid, raw, none⟩).resumeTarget = some r.id ∧
    ((orchestrate env f c store ⟨uid, raw, none⟩).invoked =
        ["SchedulerAgent", "PrioritizerAgent"] ∨
      (orchestrate env f c store ⟨uid, raw, none⟩).invoked =
        ["SchedulerAgent", "PrioritizerAgent", "TimeOptimizerAgent", "QAReviewAgent"]) := by
  cases hs : env.scheduler (normalizeTaskBreakdownIds f (normalizeGoalPlanIds f c gplan).nextCounter
      tb (normalizeGoalPlanIds f c gplan).normalizedPlan
      (normalizeGoalPlanIds f c gplan).goalIdMap) uv with
  | error e =>
    refine ⟨?_, Or.inl ?_⟩ <;>
      simp [orchestrate, foundationPhase, planningPhase, schedulingPhase, qualityPhase,
        executePhase, createContext, jsFalsy, Except.bind,
        hr, hid0, hrid, hf, hpg, hpt, hsc, hq, h3, h5, h7, hs]
  | ok sp =>
    cases hp : env.prioritizer (normalizeTaskBreakdownIds f
        (normalizeGoalPlanIds f c gplan).nextCounter tb
        (normalizeGoalPlanIds f c gplan).normalizedPlan
        (normalizeGoalPlanIds f c gplan).goalIdMap) with
    | error e =>
      refine ⟨?_, Or.inl ?_⟩ <;>
        simp [orchestrate, foundationPhase, planningPhase, schedulingPhase, qualityPhase,
          executePhase, createContext, jsFalsy, Except.bind,
          hr, hid0, hrid, hf, hpg, hpt, hsc, hq, h3, h5, h7, hs, hp]
    | ok pp =>
      cases ho : env.timeOptimizer sp.1 with
      | error e =>
        refine ⟨?_, Or.inr ?_⟩ <;>
          simp [orchestrate, foundationPhase, planningPhase, schedulingPhase, qualityPhase,
            executePhase, createContext, jsFalsy, Except.bind,
            hr, hid0, hrid, hf, hpg, hpt, hsc, hq, h3, h5, h7, hs, hp, ho]
      | ok op =>
        cases hqa : env.qaReview sp.1 (normalizeGoalPlanIds f c gplan).normalizedPlan with
        | error e =>
          refine ⟨?_, Or.inr ?_⟩ <;>
            simp [orchestrate, foundationPhase, planningPhase, schedulingPhase, qualityPhase,
              executePhase, createContext, jsFalsy, Except.bind,
              hr, hid0, hrid, hf, hpg, hpt, hsc, hq, h3, h5, h7, hs, hp, ho, hqa]
        | ok qp =>
          refine ⟨?_, Or.inr ?_⟩ <;>
            simp [orchestrate, foundationPhase, planningPhase, schedulingPhase, qualityPhase,
              executePhase, createContext, jsFalsy, Except.bind,
              hr, hid0, hrid, hf, hpg, hpt, hsc, hq, h3, h5, h7, hs, hp, ho, hqa]

/-- C9 witness: resuming against a store holding an older recoverable run,
the mid-run `runMid` (most recent recoverable) and a newer terminal run. -/
theorem c9_auto_resume_skips_completed_phases_witness :
    (getRecoverableStates [runOld, runMid, runDone] "u1" "oneagenda").head? = some runMid ∧
    ((orchestrate baseEnv genS 0 [runOld, runMid, runDone]
          ⟨"u1", "hello", none⟩).resumeTarget = some runMid.id ∧
      ((orchestrate baseEnv genS 0 [runOld, runMid, runDone] ⟨"u1", "hello", none⟩).invoked =
          ["SchedulerAgent", "PrioritizerAgent"] ∨
        (orchestrate baseEnv genS 0 [runOld, runMid, runDone] ⟨"u1", "hello", none⟩).invoked =
          ["SchedulerAgent", "PrioritizerAgent", "TimeOptimizerAgent", "QAReviewAgent"])) :=
  ⟨by decide,
    c9_auto_resume_skips_completed_phases baseEnv genS 0 [runOld, runMid, runDone] "u1" "hello"
      "intent" "uctx" cpIntent cpUser cpGoal cpTask envPlan envBreakdown runMid
      (by decide) (by decide) (by decide) rfl rfl rfl rfl rfl (by decide) (by decide) (by decide)⟩

end OneAgenda

namespace OneAgenda

theorem setEntries_map_snd (ρ : String → String) (k v : String) :
    ∀ (l : List (String × String)),
      JsMap.setEntries k (ρ v) (l.map (fun p => (p.1, ρ p.2))) =
        (JsMap.setEntries k v l).map (fun p => (p.1, ρ p.2)) := by
  intro l
  induction l with
  | nil => rfl
  | cons p t ih =>
    by_cases h : p.1 = k <;> simp [JsMap.setEntries, h, ih]

theorem find?_key_map_snd (ρ : String → String) (K : String) :
    ∀ (l : List (String × String)),
      (((l.map (fun p => (p.1, ρ p.2))).find? (fun p => p.1 == K)).map (·.2)) =
        (((l.find? (fun p => p.1 == K)).map (·.2)).map ρ) := by
  intro l
  induction l with
  | nil => rfl
  | cons p t ih =>
    by_cases h : p.1 = K
    · simp [List.find?_cons_of_pos, h]
    · rw [List.map_cons, List.find?_cons_of_neg _ (by simpa using h),
        List.find?_cons_of_neg _ (by simpa using h)]
      exact ih

theorem JsMap.set_rel {ρ : String → String} {mF mG : SMap} (k v : String)
    (h : mG.entries = mF.entries.map (fun p => (p.1, ρ p.2))) :
    (mG.set k (ρ v)).entries = ((mF.set k v).entries).map (fun p => (p.1, ρ p.2)) := by
  simp only [JsMap.set, h]
  exact setEntries_map_snd ρ k v mF.entries

theorem JsMap.get?_rel {ρ : String → String} {mF mG : SMap} (K : String)
    (h : mG.entries = mF.entries.map (fun p => (p.1, ρ p.2))) :
    mG.get? K = (mF.get? K).map ρ := by
  simp only [JsMap.get?, h]
  simpa using find?_key_map_snd ρ K mF.entries

theorem JsMap.contains_rel {ρ : String → String} {mF mG : SMap} (K : String)
    (h : mG.entries = mF.entries.map (fun p => (p.1, ρ p.2))) :
    mG.contains K = mF.contains K := by
  simp [JsMap.contains, h, List.any_map, Function.comp_def]

theorem JsMap.size_rel {ρ : String → String} {mF mG : SMap}
    (h : mG.entries = mF.entries.map (fun p => (p.1, ρ p.2))) :
    mG.size = mF.size := by
  simp [JsMap.size, h]

theorem JsMap.firstValue?_rel {ρ : String → String} {mF mG : SMap}
    (h : mG.entries = mF.entries.map (fun p => (p.1, ρ p.2))) :
    mG.firstValue? = mF.firstValue?.map ρ := by
  simp [JsMap.firstValue?, h, List.head?_map, Option.map_map, Function.comp_def]

theorem JsMap.condSet_rel {ρ : String → String} {mF mG : SMap} (sk w : String)
    (h : mG.entries = mF.entries.map (fun p => (p.1, ρ p.2))) :
    (if mG.contains sk then mG else mG.set sk (ρ w)).entries =
      ((if mF.contains sk then mF else mF.set sk w).entries).map (fun p => (p.1, ρ p.2)) := by
  rw [JsMap.contains_rel sk h]
  split
  · exact h
  · exact JsMap.set_rel sk w h

theorem registerMilestoneKeys_rel {ρ : String → String} (a : String) (gi : Nat) (b : String)
    (mi : Nat) (v : String) {mF mG : SMap}
    (h : mG.entries = mF.entries.map (fun p => (p.1, ρ p.2))) :
    (registerMilestoneKeys a gi b mi (ρ v) mG).entries =
      ((registerMilestoneKeys a gi b mi v mF).entries).map (fun p => (p.1, ρ p.2)) := by
  simp only [registerMilestoneKeys, List.foldl]
  apply JsMap.condSet_rel
  apply JsMap.condSet_rel
  apply JsMap.condSet_rel
  repeat (apply JsMap.set_rel)
  exact h

end OneAgenda

namespace OneAgenda

theorem jsOr_map {ρ : String → String} (hz0 : ρ "" = "")
    (hker : ∀ v, ρ v = "" → v = "") (x : Option String) (b : String) :
    ρ (jsOrStr x b) = jsOrStr (x.map ρ) (ρ b) := by
  cases x with
  | none => rfl
  | some v =>
    by_cases hv : v = ""
    · subst hv; simp [jsOrStr, hz0]
    · have hrv : ¬(ρ v = "") := fun hh => hv (hker v hh)
      simp [jsOrStr, hv, hrv]

theorem jsFalsy_map {ρ : String → String} (hz0 : ρ "" = "")
    (hker : ∀ v, ρ v = "" → v = "") (x : Option String) :
    jsFalsy (x.map ρ) = jsFalsy x := by
  cases x with
  | none => rfl
  | some v =>
    by_cases hv : v = ""
    · subst hv; simp [jsFalsy, hz0]
    · have hrv : ¬(ρ v = "") := fun hh => hv (hker v hh)
      simp [jsFalsy, hv, hrv]

theorem normMilestones_rel {f g : Nat → String} {ρ : String → String}
    (hrel : ∀ k, ρ (f k) = g k) (gid : String) (gidx : Nat) :
    ∀ (ms : List Milestone) (c mi : Nat) (mF mG : SMap),
      mG.entries = mF.entries.map (fun p => (p.1, ρ p.2)) →
      (normMilestones g gid gidx c mi mG ms).1 =
          (normMilestones f gid gidx c mi mF ms).1.map (mapMilestoneIds ρ) ∧
      (normMilestones g gid gidx c mi mG ms).2.1.entries =
          ((normMilestones f gid gidx c mi mF ms).2.1.entries).map (fun p => (p.1, ρ p.2)) ∧
      (normMilestones g gid gidx c mi mG ms).2.2 =
          (normMilestones f gid gidx c mi mF ms).2.2 := by
  intro ms
  induction ms with
  | nil => intro c mi mF mG h; exact ⟨rfl, h, rfl⟩
  | cons a t ih =>
    intro c mi mF mG h
    have hreg := registerMilestoneKeys_rel (ρ := ρ) gid gidx a.id mi (f c) h
    rw [hrel c] at hreg
    obtain ⟨h1, h2, h3⟩ := ih (c + 1) (mi + 1) _ _ hreg
    simp only [normMilestones]
    refine ⟨?_, h2, h3⟩
    simp [h1, mapMilestoneIds, hrel c]

theorem normGoals_rel {f g : Nat → String} {ρ : String → String}
    (hrel : ∀ k, ρ (f k) = g k) :
    ∀ (gs : List PlannedGoal) (c gi : Nat) (gmF gmG mmF mmG : SMap),
      gmG.entries = gmF.entries.map (fun p => (p.1, ρ p.2)) →
      mmG.entries = mmF.entries.map (fun p => (p.1, ρ p.2)) →
      (normGoals g c gi gmG mmG gs).1 = (normGoals f c gi gmF mmF gs).1.map (mapGoalIds ρ) ∧
      (normGoals g c gi gmG mmG gs).2.1.entries =
          ((normGoals f c gi gmF mmF gs).2.1.entries).map (fun p => (p.1, ρ p.2)) ∧
      (normGoals g c gi gmG mmG gs).2.2.1.entries =
          ((normGoals f c gi gmF mmF gs).2.2.1.entries).map (fun p => (p.1, ρ p.2)) ∧
      (normGoals g c gi gmG mmG gs).2.2.2 = (normGoals f c gi gmF mmF gs).2.2.2 := by
  intro gs
  induction gs with
  | nil => intro c gi gmF gmG mmF mmG hg hm; exact ⟨rfl, hg, hm, rfl⟩
  | cons a t ih =>
    intro c gi gmF gmG mmF mmG hg hm
    have hg1 : ((gmG.set a.id (g c)).set ("goal_" ++ toString (gi + 1)) (g c)).entries =
        (((gmF.set a.id (f c)).set ("goal_" ++ toString (gi + 1)) (f c)).entries).map
          (fun p => (p.1, ρ p.2)) := by
      rw [← hrel c]
      exact JsMap.set_rel _ _ (JsMap.set_rel _ _ hg)
    obtain ⟨hm1, hm2, hm3⟩ := normMilestones_rel hrel a.id gi a.milestones (c + 1) 0 mmF mmG hm
    obtain ⟨t1, t2, t3, t4⟩ := ih _ (gi + 1) _ _ _ _ hg1 hm2
    simp only [normGoals]
    rw [hm3]
    refine ⟨?_, t2, t3, t4⟩
    simp [t1, mapGoalIds, hm1, hrel c]

end OneAgenda

namespace OneAgenda

theorem JsMap.values_prop_set {P : String → Prop} {m : SMap} {k v0 : String}
    (hm : ∀ K v, m.get? K = some v → P v) (h0 : P v0) :
    ∀ K v, (m.set k v0).get? K = some v → P v := by
  intro K v h
  rw [JsMap.get?_set] at h
  split at h
  · exact (Option.some.inj h) ▸ h0
  · exact hm K v h

theorem normGoals_goal_ids (f : Nat → String) :
    ∀ (gs : List PlannedGoal) (c gi : Nat) (gm mm : SMap),
      ∀ gl ∈ (normGoals f c gi gm mm gs).1, ∃ k, gl.id = f k := by
  intro gs
  induction gs with
  | nil => intro c gi gm mm gl h; simp [normGoals] at h
  | cons a t ih =>
    intro c gi gm mm gl h
    simp only [normGoals, List.mem_cons] at h
    rcases h with h | h
    · exact ⟨c, by rw [h]⟩
    · exact ih _ (gi + 1) _ _ gl h

theorem normGoals_gmap_values (f : Nat → String) :
    ∀ (gs : List PlannedGoal) (c gi : Nat) (gm mm : SMap),
      (∀ K v, gm.get? K = some v → ∃ k, v = f k) →
      ∀ K v, (normGoals f c gi gm mm gs).2.1.get? K = some v → ∃ k, v = f k := by
  intro gs
  induction gs with
  | nil => intro c gi gm mm hbase K v h; exact hbase K v h
  | cons a t ih =>
    intro c gi gm mm hbase K v h
    simp only [normGoals] at h
    exact ih _ (gi + 1) _ _
      (JsMap.values_prop_set (JsMap.values_prop_set hbase ⟨c, rfl⟩) ⟨c, rfl⟩) K v h

theorem buildTasks_tmap_values (f : Nat → String) :
    ∀ (ts : List PlannedTask) (c i : Nat) (m : SMap),
      (∀ K v, m.get? K = some v → ∃ k, v = f k) →
      ∀ K v, ((buildTasksWithNewIds f c i m ts).2).get? K = some v → ∃ k, v = f k := by
  intro ts
  induction ts with
  | nil => intro c i m hbase K v h; exact hbase K v h
  | cons a t ih =>
    intro c i m hbase K v h
    simp only [buildTasksWithNewIds] at h
    exact ih (c + 1) (i + 1) _
      (JsMap.values_prop_set (JsMap.values_prop_set hbase ⟨c, rfl⟩) ⟨c, rfl⟩) K v h

theorem buildTasks_rel {f g : Nat → String} {ρ : String → String}
    (hrel : ∀ k, ρ (f k) = g k) :
    ∀ (ts : List PlannedTask) (c i : Nat) (mF mG : SMap),
      mG.entries = mF.entries.map (fun p => (p.1, ρ p.2)) →
      (buildTasksWithNewIds g c i mG ts).1 =
          (buildTasksWithNewIds f c i mF ts).1.map (fun t => { t with id := ρ t.id }) ∧
      (buildTasksWithNewIds g c i mG ts).2.entries =
          ((buildTasksWithNewIds f c i mF ts).2.entries).map (fun p => (p.1, ρ p.2)) := by
  intro ts
  induction ts with
  | nil => intro c i mF mG h; exact ⟨rfl, h⟩
  | cons a t ih =>
    intro c i mF mG h
    have hm1 : ((mG.set a.id (g c)).set ("task_" ++ toString (i + 1)) (g c)).entries =
        (((mF.set a.id (f c)).set ("task_" ++ toString (i + 1)) (f c)).entries).map
          (fun p => (p.1, ρ p.2)) := by
      rw [← hrel c]
      exact JsMap.set_rel _ _ (JsMap.set_rel _ _ h)
    obtain ⟨h1, h2⟩ := ih (c + 1) (i + 1) _ _ hm1
    simp only [buildTasksWithNewIds]
    refine ⟨?_, h2⟩
    simp [h1, hrel c]

end OneAgenda

namespace OneAgenda

theorem find?_congr_mem {α : Type} {p q : α → Bool} :
    ∀ (l : List α), (∀ x ∈ l, p x = q x) → l.find? p = l.find? q := by
  intro l
  induction l with
  | nil => intro _; rfl
  | cons a t ih =>
    intro h
    rw [List.find?_cons, List.find?_cons, h a (List.mem_cons_self a t),
      ih (fun x hx => h x (List.mem_cons_of_mem a hx))]

theorem jsOr_cases (x : Option String) (b : String) :
    jsOrStr x b = b ∨ ∃ v, x = some v ∧ jsOrStr x b = v := by
  cases x with
  | none => exact Or.inl rfl
  | some v =>
    by_cases hv : v = ""
    · exact Or.inl (by simp [jsOrStr, hv])
    · exact Or.inr ⟨v, rfl, by simp [jsOrStr, hv]⟩

theorem JsMap.firstValue?_is_value {m : SMap} {v : String}
    (h : m.firstValue? = some v) : ∃ K, m.get? K = some v := by
  rcases m with ⟨l⟩
  cases l with
  | nil => simp [JsMap.firstValue?] at h
  | cons p t =>
    refine ⟨p.1, ?_⟩
    simp [JsMap.firstValue?] at h
    simp [JsMap.get?, List.find?_cons_of_pos, h]

end OneAgenda

namespace OneAgenda

set_option maxHeartbeats 1000000

theorem find?_rel_aux {ρ : String → String} {Ok : String → Prop}
    (goalsF : List PlannedGoal) (rF : String)
    (hOkGoals : ∀ gl ∈ goalsF, Ok gl.id) (hOkrF : Ok rF)
    (hinjOk : ∀ x y, Ok x → Ok y → ρ x = ρ y → x = y) :
    (goalsF.map (mapGoalIds ρ)).find? (fun gl => gl.id == ρ rF) =
      (goalsF.find? (fun gl => gl.id == rF)).map (mapGoalIds ρ) := by
  rw [List.find?_map]
  congr 1
  apply find?_congr_mem
  intro gl hgl
  by_cases hid : gl.id = rF
  · simp [mapGoalIds, Function.comp_def, hid]
  · have hne : ¬(ρ gl.id = ρ rF) := fun hh => hid (hinjOk _ _ (hOkGoals gl hgl) hOkrF hh)
    simp [mapGoalIds, Function.comp_def, hid, hne]

theorem milestone_chain_rel {ρ : String → String} (hz0 : ρ "" = "")
    (hker : ∀ v, ρ v = "" → v = "")
    (hfixDefault : ρ "milestone_default" = "milestone_default")
    (goalF : Option PlannedGoal) (mi : Nat) :
    jsOrStr (((goalF.map (mapGoalIds ρ)).bind (fun g => g.milestones.get? (mi - 1))).map (·.id))
      (jsOrStr (((goalF.map (mapGoalIds ρ)).bind (fun g => g.milestones.head?)).map (·.id))
        "milestone_default") =
    ρ (jsOrStr ((goalF.bind (fun g => g.milestones.get? (mi - 1))).map (·.id))
      (jsOrStr ((goalF.bind (fun g => g.milestones.head?)).map (·.id)) "milestone_default")) := by
  cases goalF with
  | none => simp [jsOrStr, hfixDefault]
  | some G0 =>
    rw [jsOr_map hz0 hker, jsOr_map hz0 hker, hfixDefault]
    simp [mapGoalIds, List.getElem?_map, List.head?_map, Option.map_map, Function.comp_def,
      mapMilestoneIds]

theorem resolveTask_rel {ρ : String → String} {planF planG : GoalPlan}
    {gMapF gMapG tMapF tMapG : SMap} {t : PlannedTask} {Ok : String → Prop}
    (hplan : planG = mapGoalPlanIds ρ planF)
    (hg : gMapG.entries = gMapF.entries.map (fun p => (p.1, ρ p.2)))
    (ht : tMapG.entries = tMapF.entries.map (fun p => (p.1, ρ p.2)))
    (hz0 : ρ "" = "") (hker : ∀ v, ρ v = "" → v = "")
    (hOkGoals : ∀ gl ∈ planF.goals, Ok gl.id)
    (hOkGv : ∀ K v, gMapF.get? K = some v → Ok v)
    (hOkGoalId : Ok t.goalId)
    (hinjOk : ∀ x y, Ok x → Ok y → ρ x = ρ y → x = y)
    (hfixGoalId : ρ t.goalId = t.goalId)
    (hfixDeps : ∀ d ∈ t.dependencies, ρ d = d)
    (hfixDefault : ρ "milestone_default" = "milestone_default") :
    resolveTask planG gMapG tMapG { t with id := ρ t.id } =
      mapTaskIds ρ (resolveTask planF gMapF tMapF t) := by
  have hgoalsG : planG.goals = planF.goals.map (mapGoalIds ρ) := by rw [hplan]; rfl
  have e0 : gMapG.get? t.goalId = (gMapF.get? t.goalId).map ρ := JsMap.get?_rel _ hg
  have esz : gMapG.size = gMapF.size := JsMap.size_rel hg
  have efv : gMapG.firstValue? = gMapF.firstValue?.map ρ := JsMap.firstValue?_rel hg
  have er1 : (if jsFalsy (gMapG.get? t.goalId) && gMapG.size == 1 then gMapG.firstValue?
        else gMapG.get? t.goalId) =
      (if jsFalsy (gMapF.get? t.goalId) && gMapF.size == 1 then gMapF.firstValue?
        else gMapF.get? t.goalId).map ρ := by
    rw [e0, esz, jsFalsy_map hz0 hker]
    split
    · exact efv
    · rfl
  have efb : jsOrStr ((planG.goals.head?).map (·.id)) t.goalId =
      ρ (jsOrStr ((planF.goals.head?).map (·.id)) t.goalId) := by
    rw [hgoalsG, List.head?_map, jsOr_map hz0 hker, hfixGoalId]
    simp [Option.map_map, Function.comp_def, mapGoalIds]
  have erg : jsOrStr
        (if jsFalsy (gMapG.get? t.goalId) && gMapG.size == 1 then gMapG.firstValue?
          else gMapG.get? t.goalId)
        (jsOrStr ((planG.goals.head?).map (·.id)) t.goalId) =
      ρ (jsOrStr
        (if jsFalsy (gMapF.get? t.goalId) && gMapF.size == 1 then gMapF.firstValue?
          else gMapF.get? t.goalId)
        (jsOrStr ((planF.goals.head?).map (·.id)) t.goalId)) := by
    rw [er1, efb, ← jsOr_map hz0 hker]
  have hOkrF : Ok (jsOrStr
      (if jsFalsy (gMapF.get? t.goalId) && gMapF.size == 1 then gMapF.firstValue?
        else gMapF.get? t.goalId)
      (jsOrStr ((planF.goals.head?).map (·.id)) t.goalId)) := by
    rcases jsOr_cases (if jsFalsy (gMapF.get? t.goalId) && gMapF.size == 1 then gMapF.firstValue?
        else gMapF.get? t.goalId) (jsOrStr ((planF.goals.head?).map (·.id)) t.goalId) with
      hc | ⟨v, hv, hveq⟩
    · rw [hc]
      rcases jsOr_cases ((planF.goals.head?).map (·.id)) t.goalId with hc2 | ⟨w, hw, hweq⟩
      · rw [hc2]; exact hOkGoalId
      · rw [hweq]
        rcases Option.map_eq_some'.mp hw with ⟨gl, hgl, hglw⟩
        exact hglw ▸ hOkGoals gl (List.mem_of_mem_head? hgl)
    · rw [hveq]
      rcases hv2 : (jsFalsy (gMapF.get? t.goalId) && gMapF.size == 1) with _ | _
      · rw [hv2] at hv
        simp at hv
        exact hOkGv t.goalId v hv
      · rw [hv2] at hv
        simp at hv
        rcases JsMap.firstValue?_is_value hv with ⟨K, hK⟩
        exact hOkGv K v hK
  have efind : planG.goals.find? (fun gl => gl.id == jsOrStr
        (if jsFalsy (gMapG.get? t.goalId) && gMapG.size == 1 then gMapG.firstValue?
          else gMapG.get? t.goalId)
        (jsOrStr ((planG.goals.head?).map (·.id)) t.goalId)) =
      (planF.goals.find? (fun gl => gl.id == jsOrStr
        (if jsFalsy (gMapF.get? t.goalId) && gMapF.size == 1 then gMapF.firstValue?
          else gMapF.get? t.goalId)
        (jsOrStr ((planF.goals.head?).map (·.id)) t.goalId))).map (mapGoalIds ρ) := by
    rw [erg, hgoalsG]
    exact find?_rel_aux planF.goals _ hOkGoals hOkrF hinjOk
  have edeps : t.dependencies.map (fun dep => jsOrStr (tMapG.get? dep) dep) =
      (t.dependencies.map (fun dep => jsOrStr (tMapF.get? dep) dep)).map ρ := by
    rw [List.map_map]
    apply List.map_congr_left
    intro d hd
    simp [Function.comp_def, JsMap.get?_rel _ ht, jsOr_map hz0 hker, hfixDeps d hd]
  simp only [resolveTask, mapTaskIds]
  rw [efind]
  simp only [PlannedTask.mk.injEq]
  refine ⟨trivial, trivial, trivial, ?_, ?_, ?_⟩
  · exact milestone_chain_rel hz0 hker hfixDefault _ _
  · exact erg
  · exact edeps

end OneAgenda

namespace OneAgenda

theorem normalizeGoalPlanIds_rel {f g : Nat → String} {ρ : String → String}
    (hrel : ∀ k, ρ (f k) = g k) (hz0 : ρ "" = "") (hker : ∀ v, ρ v = "" → v = "")
    (plan : GoalPlan) (c : Nat)
    (hfixPr : ∀ s ∈ plan.priorityRanking, ρ s = s) :
    (normalizeGoalPlanIds g c plan).normalizedPlan =
        mapGoalPlanIds ρ ((normalizeGoalPlanIds f c plan).normalizedPlan) ∧
    (normalizeGoalPlanIds g c plan).goalIdMap.entries =
        ((normalizeGoalPlanIds f c plan).goalIdMap.entries).map (fun p => (p.1, ρ p.2)) ∧
    (normalizeGoalPlanIds g c plan).nextCounter =
        (normalizeGoalPlanIds f c plan).nextCounter := by
  obtain ⟨h1, h2, h3, h4⟩ :=
    normGoals_rel hrel plan.goals c 0 JsMap.empty JsMap.empty JsMap.empty JsMap.empty rfl rfl
  refine ⟨?_, h2, h4⟩
  simp only [normalizeGoalPlanIds, mapGoalPlanIds, GoalPlan.mk.injEq]
  refine ⟨h1, ?_, trivial⟩
  rw [List.map_map]
  apply List.map_congr_left
  intro s hs
  rw [Function.comp_apply, JsMap.get?_rel _ h2, ← hfixPr s hs, ← jsOr_map hz0 hker, hfixPr s hs]

end OneAgenda

namespace OneAgenda

theorem mem_setEntries {α : Type} (k : String) (v : α) :
    ∀ (l : List (String × α)) (q : String × α),
      q ∈ JsMap.setEntries k v l → q = (k, v) ∨ q ∈ l := by
  intro l
  induction l with
  | nil => intro q h; simpa [JsMap.setEntries] using h
  | cons p t ih =>
    intro q h
    by_cases hp : p.1 = k
    · rw [show JsMap.setEntries k v (p :: t) = (k, v) :: t from by
        simp [JsMap.setEntries, hp]] at h
      rcases List.mem_cons.mp h with h | h
      · exact Or.inl h
      · exact Or.inr (List.mem_cons_of_mem p h)
    · rw [show JsMap.setEntries k v (p :: t) = p :: JsMap.setEntries k v t from by
        simp [JsMap.setEntries, hp]] at h
      rcases List.mem_cons.mp h with h | h
      · exact Or.inr (h ▸ List.mem_cons_self p t)
      · rcases ih q h with h | h
        · exact Or.inl h
        · exact Or.inr (List.mem_cons_of_mem p h)

theorem setEntries_graph_rel {ρ : String → String} {Ok : String → Prop}
    (hinj : ∀ x y, Ok x → Ok y → ρ x = ρ y → x = y) (k : String) (vs : List String) :
    ∀ (l : List (String × List String)), Ok k → (∀ q ∈ l, Ok q.1) →
      JsMap.setEntries (ρ k) (vs.map ρ) (l.map (fun p => (ρ p.1, p.2.map ρ))) =
        (JsMap.setEntries k vs l).map (fun p => (ρ p.1, p.2.map ρ)) := by
  intro l
  induction l with
  | nil => intro _ _; rfl
  | cons p t ih =>
    intro hk hOkl
    by_cases hp : p.1 = k
    · simp [JsMap.setEntries, hp]
    · have hp2 : ¬(ρ p.1 = ρ k) :=
        fun hh => hp (hinj _ _ (hOkl p (List.mem_cons_self p t)) hk hh)
      simp [JsMap.setEntries, hp, hp2,
        ih hk (fun q hq => hOkl q (List.mem_cons_of_mem p hq))]

theorem foldl_set_rel_keys {ρ : String → String} {Ok : String → Prop}
    (hinj : ∀ x y, Ok x → Ok y → ρ x = ρ y → x = y) :
    ∀ (qs : List (String × List String)) (accF accG : JsMap (List String)),
      accG.entries = accF.entries.map (fun q => (ρ q.1, q.2.map ρ)) →
      (∀ q ∈ accF.entries, Ok q.1) → (∀ q ∈ qs, Ok q.1) →
      ((qs.map (fun q => (ρ q.1, q.2.map ρ))).foldl (fun gg q => gg.set q.1 q.2) accG).entries =
        ((qs.foldl (fun gg q => gg.set q.1 q.2) accF).entries).map
          (fun q => (ρ q.1, q.2.map ρ)) := by
  intro qs
  induction qs with
  | nil => intro accF accG h _ _; exact h
  | cons q t ih =>
    intro accF accG h hOkAcc hOkqs
    simp only [List.map_cons, List.foldl_cons]
    have hq1 : Ok q.1 := hOkqs q (List.mem_cons_self q t)
    have hstep : (accG.set (ρ q.1) (q.2.map ρ)).entries =
        ((accF.set q.1 q.2).entries).map (fun q => (ρ q.1, q.2.map ρ)) := by
      simp only [JsMap.set, h]
      exact setEntries_graph_rel hinj q.1 q.2 accF.entries hq1 hOkAcc
    exact ih _ _ hstep
      (fun q2 hq2 => by
        rcases mem_setEntries q.1 q.2 accF.entries q2 hq2 with h2 | h2
        · exact h2 ▸ hq1
        · exact hOkAcc q2 h2)
      (fun q2 hq2 => hOkqs q2 (List.mem_cons_of_mem q hq2))

theorem buildTasks_member_fields (f : Nat → String) :
    ∀ (ts : List PlannedTask) (c i : Nat) (m : SMap),
      ∀ t2 ∈ (buildTasksWithNewIds f c i m ts).1,
        ∃ t0 ∈ ts, t2.goalId = t0.goalId ∧ t2.dependencies = t0.dependencies ∧
          t2.milestoneIndex = t0.milestoneIndex := by
  intro ts
  induction ts with
  | nil => intro c i m t2 h; simp [buildTasksWithNewIds] at h
  | cons a t ih =>
    intro c i m t2 h
    simp only [buildTasksWithNewIds, List.mem_cons] at h
    rcases h with h | h
    · exact ⟨a, List.mem_cons_self a t, by simp [h]⟩
    · rcases ih (c + 1) (i + 1) _ t2 h with ⟨t0, ht0, hfields⟩
      exact ⟨t0, List.mem_cons_of_mem a ht0, hfields⟩

end OneAgenda

namespace OneAgenda

theorem JsMap.eq_of_entries {α : Type} {m1 m2 : JsMap α} (h : m1.entries = m2.entries) :
    m1 = m2 := by
  cases m1; cases m2; cases h; rfl

theorem graph_rewrite_rel {ρ : String → String} {Ok : String → Prop}
    (hinjOk : ∀ x y, Ok x → Ok y → ρ x = ρ y → x = y)
    (hz0 : ρ "" = "") (hker : ∀ v, ρ v = "" → v = "")
    (tF tG : SMap)
    (hpm : tG.entries = tF.entries.map (fun p => (p.1, ρ p.2)))
    (hvals : ∀ K v, tF.get? K = some v → Ok v)
    (entries : List (String × List String))
    (hOkKeys : ∀ p ∈ entries, Ok p.1)
    (hfixG : ∀ p ∈ entries, ρ p.1 = p.1 ∧ ∀ d ∈ p.2, ρ d = d) :
    (entries.foldl (fun gg p => gg.set (jsOrStr (tG.get? p.1) p.1)
        (p.2.map (fun d => jsOrStr (tG.get? d) d))) JsMap.empty).entries =
      ((entries.foldl (fun gg p => gg.set (jsOrStr (tF.get? p.1) p.1)
        (p.2.map (fun d => jsOrStr (tF.get? d) d))) JsMap.empty).entries).map
        (fun q => (ρ q.1, q.2.map ρ)) := by
  have hbodyF : entries.foldl (fun gg p => gg.set (jsOrStr (tF.get? p.1) p.1)
        (p.2.map (fun d => jsOrStr (tF.get? d) d))) JsMap.empty =
      (entries.map (fun p => (jsOrStr (tF.get? p.1) p.1,
        p.2.map (fun d => jsOrStr (tF.get? d) d)))).foldl
        (fun gg q => gg.set q.1 q.2) JsMap.empty := by
    rw [List.foldl_map]
  have hbodyG : entries.foldl (fun gg p => gg.set (jsOrStr (tG.get? p.1) p.1)
        (p.2.map (fun d => jsOrStr (tG.get? d) d))) JsMap.empty =
      (entries.map (fun p => (jsOrStr (tG.get? p.1) p.1,
        p.2.map (fun d => jsOrStr (tG.get? d) d)))).foldl
        (fun gg q => gg.set q.1 q.2) JsMap.empty := by
    rw [List.foldl_map]
  have hrw2 : ∀ s : String, ρ s = s →
      jsOrStr (tG.get? s) s = ρ (jsOrStr (tF.get? s) s) := by
    intro s hfix
    rw [JsMap.get?_rel _ hpm, jsOr_map hz0 hker, hfix]
  have hphi : entries.map (fun p => (jsOrStr (tG.get? p.1) p.1,
        p.2.map (fun d => jsOrStr (tG.get? d) d))) =
      (entries.map (fun p => (jsOrStr (tF.get? p.1) p.1,
        p.2.map (fun d => jsOrStr (tF.get? d) d)))).map (fun q => (ρ q.1, q.2.map ρ)) := by
    rw [List.map_map]
    apply List.map_congr_left
    intro p hp
    refine Prod.ext ?_ ?_
    · exact hrw2 p.1 (hfixG p hp).1
    · simp only [Function.comp_apply, List.map_map]
      apply List.map_congr_left
      intro d hd
      exact hrw2 d ((hfixG p hp).2 d hd)
  rw [hbodyF, hbodyG, hphi]
  apply foldl_set_rel_keys hinjOk _ JsMap.empty JsMap.empty rfl
  · intro q hq
    simp [JsMap.empty] at hq
  · intro q hq
    rcases List.mem_map.mp hq with ⟨p, hp, hpq⟩
    have h1 : q.1 = jsOrStr (tF.get? p.1) p.1 := by rw [← hpq]
    rw [h1]
    rcases jsOr_cases (tF.get? p.1) p.1 with hcase | ⟨v, hv, hveq⟩
    · rw [hcase]; exact hOkKeys p hp
    · rw [hveq]; exact hvals p.1 v hv

theorem normalizeTaskBreakdownIds_rel {f g : Nat → String} {ρ : String → String}
    (Ok : String → Prop)
    (hrel : ∀ k, ρ (f k) = g k) (hz0 : ρ "" = "") (hker : ∀ v, ρ v = "" → v = "")
    (bd : TaskBreakdown) (planF planG : GoalPlan) (gMapF gMapG : SMap) (c : Nat)
    (hplan : planG = mapGoalPlanIds ρ planF)
    (hg : gMapG.entries = gMapF.entries.map (fun p => (p.1, ρ p.2)))
    (hOkGoals : ∀ gl ∈ planF.goals, Ok gl.id)
    (hOkGv : ∀ K v, gMapF.get? K = some v → Ok v)
    (hOkGen : ∀ k2, Ok (f k2))
    (hOkRaw : ∀ t0 ∈ bd.tasks, Ok t0.goalId)
    (hOkGraphKeys : ∀ p ∈ bd.dependencyGraph.entries, Ok p.1)
    (hinjOk : ∀ x y, Ok x → Ok y → ρ x = ρ y → x = y)
    (hfixTasks : ∀ t0 ∈ bd.tasks, ρ t0.goalId = t0.goalId ∧ ∀ d ∈ t0.dependencies, ρ d = d)
    (hfixDefault : ρ "milestone_default" = "milestone_default")
    (hfixGraph : ∀ p ∈ bd.dependencyGraph.entries, ρ p.1 = p.1 ∧ ∀ d ∈ p.2, ρ d = d)
    (hfixCp : ∀ s ∈ bd.criticalPath, ρ s = s) :
    normalizeTaskBreakdownIds g c bd planG gMapG =
      mapBreakdownIds ρ (normalizeTaskBreakdownIds f c bd planF gMapF) := by
  obtain ⟨hp1, hpm⟩ := buildTasks_rel hrel bd.tasks c 0 JsMap.empty JsMap.empty rfl
  have hvals : ∀ K v, ((buildTasksWithNewIds f c 0 JsMap.empty bd.tasks).2).get? K = some v →
      ∃ k2, v = f k2 :=
    buildTasks_tmap_values f bd.tasks c 0 JsMap.empty (by intro K v h; simp [JsMap.get?, JsMap.empty] at h)
  have hrw : ∀ s : String, ρ s = s →
      jsOrStr (((buildTasksWithNewIds g c 0 JsMap.empty bd.tasks).2).get? s) s =
        ρ (jsOrStr (((buildTasksWithNewIds f c 0 JsMap.empty bd.tasks).2).get? s) s) := by
    intro s hfix
    rw [JsMap.get?_rel _ hpm, jsOr_map hz0 hker, hfix]
  have htasks : (buildTasksWithNewIds g c 0 JsMap.empty bd.tasks).1.map
      (resolveTask planG gMapG (buildTasksWithNewIds g c 0 JsMap.empty bd.tasks).2) =
      ((buildTasksWithNewIds f c 0 JsMap.empty bd.tasks).1.map
        (resolveTask planF gMapF (buildTasksWithNewIds f c 0 JsMap.empty bd.tasks).2)).map
        (mapTaskIds ρ) := by
    rw [hp1, List.map_map, List.map_map]
    apply List.map_congr_left
    intro t2 ht2
    rcases buildTasks_member_fields f bd.tasks c 0 JsMap.empty t2 ht2 with
      ⟨t0, ht0, hgid, hdeps, _⟩
    have hstep := resolveTask_rel (t := t2) hplan hg hpm hz0 hker hOkGoals hOkGv
      (hgid ▸ hOkRaw t0 ht0) hinjOk
      (by rw [hgid]; exact (hfixTasks t0 ht0).1)
      (fun d hd => (hfixTasks t0 ht0).2 d (hdeps ▸ hd)) hfixDefault
    simpa [Function.comp_def] using hstep
  have hOkVals : ∀ K v,
      ((buildTasksWithNewIds f c 0 JsMap.empty bd.tasks).2).get? K = some v → Ok v := by
    intro K v h
    rcases hvals K v h with ⟨k2, hk2⟩
    exact hk2 ▸ hOkGen k2
  have hgraph := graph_rewrite_rel hinjOk hz0 hker
    (buildTasksWithNewIds f c 0 JsMap.empty bd.tasks).2
    (buildTasksWithNewIds g c 0 JsMap.empty bd.tasks).2
    hpm hOkVals bd.dependencyGraph.entries hOkGraphKeys hfixGraph
  have hcp : bd.criticalPath.map (fun i =>
        jsOrStr (((buildTasksWithNewIds g c 0 JsMap.empty bd.tasks).2).get? i) i) =
      (bd.criticalPath.map (fun i =>
        jsOrStr (((buildTasksWithNewIds f c 0 JsMap.empty bd.tasks).2).get? i) i)).map ρ := by
    rw [List.map_map]
    apply List.map_congr_left
    intro s hs
    exact hrw s (hfixCp s hs)
  simp only [normalizeTaskBreakdownIds, mapBreakdownIds, TaskBreakdown.mk.injEq]
  exact ⟨htasks, JsMap.eq_of_entries hgraph, hcp, trivial⟩


end OneAgenda

namespace OneAgenda

theorem inputStrings_part_pr {plan : GoalPlan} {bd : TaskBreakdown} :
    ∀ s ∈ plan.priorityRanking, s ∈ inputStrings plan bd := by
  intro s hs
  unfold inputStrings
  exact List.mem_cons_of_mem _ (List.mem_cons_of_mem _
    (List.mem_append_left _ (List.mem_append_left _ (List.mem_append_left _
      (List.mem_append_right _ hs)))))

theorem inputStrings_part_task {plan : GoalPlan} {bd : TaskBreakdown} :
    ∀ t0 ∈ bd.tasks, ∀ s, (s = t0.goalId ∨ s ∈ t0.dependencies) → s ∈ inputStrings plan bd := by
  intro t0 ht0 s hs
  unfold inputStrings
  refine List.mem_cons_of_mem _ (List.mem_cons_of_mem _
    (List.mem_append_left _ (List.mem_append_left _
      (List.mem_append_right _ (List.mem_flatMap.mpr ⟨t0, ht0, ?_⟩)))))
  rcases hs with h | h
  · exact h ▸ List.mem_cons_of_mem _ (List.mem_cons_self _ _)
  · exact List.mem_cons_of_mem _ (List.mem_cons_of_mem _ h)

theorem inputStrings_part_graph {plan : GoalPlan} {bd : TaskBreakdown} :
    ∀ p ∈ bd.dependencyGraph.entries, ∀ s, (s = p.1 ∨ s ∈ p.2) →
      s ∈ inputStrings plan bd := by
  intro p hp s hs
  unfold inputStrings
  refine List.mem_cons_of_mem _ (List.mem_cons_of_mem _
    (List.mem_append_left _
      (List.mem_append_right _ (List.mem_flatMap.mpr ⟨p, hp, ?_⟩))))
  rcases hs with h | h
  · exact h ▸ List.mem_cons_self _ _
  · exact List.mem_cons_of_mem _ h

theorem inputStrings_part_cp {plan : GoalPlan} {bd : TaskBreakdown} :
    ∀ s ∈ bd.criticalPath, s ∈ inputStrings plan bd := by
  intro s hs
  unfold inputStrings
  exact List.mem_cons_of_mem _ (List.mem_cons_of_mem _ (List.mem_append_right _ hs))

theorem inputStrings_empty_mem (plan : GoalPlan) (bd : TaskBreakdown) :
    ("" : String) ∈ inputStrings plan bd := List.mem_cons_self _ _

theorem inputStrings_default_mem (plan : GoalPlan) (bd : TaskBreakdown) :
    ("milestone_default" : String) ∈ inputStrings plan bd :=
  List.mem_cons_of_mem _ (List.mem_cons_self _ _)

end OneAgenda

namespace OneAgenda

/-- C8: rerunning the Reconciliation Engine on the same raw goal/task
output with a reseeded id generator yields isomorphic stable-id graphs:
for any two injective, input-fresh id supplies `f` and `g` there is a
relabeling `ρ` carrying every `f`-generated id to the corresponding
`g`-generated id and fixing every raw input string, under which the first
run's normalized plan and task breakdown (goal/milestone structure, every
task's goal and milestone assignment, every dependency edge, the
dependency graph and the critical-path order) map exactly onto the second
run's. -/
theorem c8_reconciliation_rerun_isomorphic (plan : GoalPlan) (bd : TaskBreakdown) (f g : Nat → String) (c : Nat)
    (hfInj : Function.Injective f) (hgInj : Function.Injective g)
    (hfFresh : FreshSeq f plan bd) (hgFresh : FreshSeq g plan bd) :
    ∃ ρ : String → String,
      (∀ k, ρ (f k) = g k) ∧
      (∀ s ∈ inputStrings plan bd, ρ s = s) ∧
      mapGoalPlanIds ρ (engineRun f c plan bd).1 = (engineRun g c plan bd).1 ∧
      mapBreakdownIds ρ (engineRun f c plan bd).2 = (engineRun g c plan bd).2 := by
  classical
  refine ⟨fun s => if h : ∃ k, f k = s then g (Classical.choose h) else s, ?_⟩
  set ρ : String → String :=
    fun s => if h : ∃ k, f k = s then g (Classical.choose h) else s with hρ
  have hrel : ∀ k, ρ (f k) = g k := by
    intro k
    have hex : ∃ j, f j = f k := ⟨k, rfl⟩
    have hch : f (Classical.choose hex) = f k := Classical.choose_spec hex
    simp only [hρ, dif_pos hex]
    rw [hfInj hch]
  have hfixS : ∀ s ∈ inputStrings plan bd, ρ s = s := by
    intro s hs
    have hnex : ¬ ∃ k, f k = s := by
      rintro ⟨k, hk⟩
      exact hfFresh k (hk ▸ hs)
    simp only [hρ, dif_neg hnex]
  have hz0 : ρ "" = "" := hfixS _ (inputStrings_empty_mem plan bd)
  have hker : ∀ v, ρ v = "" → v = "" := by
    intro v hv
    by_cases hex : ∃ k, f k = v
    · exfalso
      rw [hρ] at hv
      simp only [dif_pos hex] at hv
      exact hgFresh (Classical.choose hex) (hv ▸ inputStrings_empty_mem plan bd)
    · rw [hρ] at hv
      simpa only [dif_neg hex] using hv
  have hρf : ∀ s, (∃ k, s = f k) → ∃ k, s = f k ∧ ρ s = g k := by
    rintro s ⟨k, rfl⟩
    exact ⟨k, rfl, hrel k⟩
  have hinjOk : ∀ x y,
      ((∃ k, x = f k) ∨ x ∈ inputStrings plan bd) →
      ((∃ k, y = f k) ∨ y ∈ inputStrings plan bd) → ρ x = ρ y → x = y := by
    rintro x y (hx | hx) (hy | hy) hxy
    · rcases hρf x hx with ⟨kx, rfl, hgx⟩
      rcases hρf y hy with ⟨ky, rfl, hgy⟩
      rw [hgx, hgy] at hxy
      rw [hgInj hxy]
    · rcases hρf x hx with ⟨kx, rfl, hgx⟩
      rw [hgx, hfixS y hy] at hxy
      exact absurd (hxy ▸ hy) (hgFresh kx)
    · rcases hρf y hy with ⟨ky, rfl, hgy⟩
      rw [hgy, hfixS x hx] at hxy
      exact absurd (hxy ▸ hx) (hgFresh ky)
    · rw [hfixS x hx, hfixS y hy] at hxy
      exact hxy
  obtain ⟨hplanRel, hgmapRel, hcntRel⟩ :=
    normalizeGoalPlanIds_rel hrel hz0 hker plan c (fun s hs => hfixS s (inputStrings_part_pr s hs))
  have hOkGoals : ∀ gl ∈ (normalizeGoalPlanIds f c plan).normalizedPlan.goals,
      (∃ k, gl.id = f k) ∨ gl.id ∈ inputStrings plan bd := by
    intro gl hgl
    exact Or.inl (normGoals_goal_ids f plan.goals c 0 JsMap.empty JsMap.empty gl hgl)
  have hOkGv : ∀ K v, (normalizeGoalPlanIds f c plan).goalIdMap.get? K = some v →
      (∃ k, v = f k) ∨ v ∈ inputStrings plan bd := by
    intro K v h
    exact Or.inl (normGoals_gmap_values f plan.goals c 0 JsMap.empty JsMap.empty
      (by intro K2 v2 h2; simp [JsMap.get?, JsMap.empty] at h2) K v h)
  have hbd := normalizeTaskBreakdownIds_rel
    (fun s => (∃ k, s = f k) ∨ s ∈ inputStrings plan bd)
    hrel hz0 hker bd
    (normalizeGoalPlanIds f c plan).normalizedPlan
    (normalizeGoalPlanIds g c plan).normalizedPlan
    (normalizeGoalPlanIds f c plan).goalIdMap
    (normalizeGoalPlanIds g c plan).goalIdMap
    (normalizeGoalPlanIds f c plan).nextCounter
    hplanRel hgmapRel hOkGoals hOkGv (fun k2 => Or.inl ⟨k2, rfl⟩)
    (fun t0 ht0 => Or.inr (inputStrings_part_task t0 ht0 t0.goalId (Or.inl rfl)))
    (fun p hp => Or.inr (inputStrings_part_graph p hp p.1 (Or.inl rfl)))
    hinjOk
    (fun t0 ht0 => ⟨hfixS t0.goalId (inputStrings_part_task t0 ht0 t0.goalId (Or.inl rfl)),
      fun d hd => hfixS d (inputStrings_part_task t0 ht0 d (Or.inr hd))⟩)
    (hfixS _ (inputStrings_default_mem plan bd))
    (fun p hp => ⟨hfixS p.1 (inputStrings_part_graph p hp p.1 (Or.inl rfl)),
      fun d hd => hfixS d (inputStrings_part_graph p hp d (Or.inr hd))⟩)
    (fun s hs => hfixS s (inputStrings_part_cp s hs))
  refine ⟨hrel, hfixS, ?_, ?_⟩
  · exact hplanRel.symm
  · show mapBreakdownIds ρ (normalizeTaskBreakdownIds f (normalizeGoalPlanIds f c plan).nextCounter
        bd (normalizeGoalPlanIds f c plan).normalizedPlan
        (normalizeGoalPlanIds f c plan).goalIdMap) =
      normalizeTaskBreakdownIds g (normalizeGoalPlanIds g c plan).nextCounter
        bd (normalizeGoalPlanIds g c plan).normalizedPlan
        (normalizeGoalPlanIds g c plan).goalIdMap
    rw [hcntRel]
    exact hbd.symm

end OneAgenda

namespace OneAgenda

theorem genA_injective : Function.Injective genA := by
  intro a b h
  have h2 : List.replicate (a + 1) 'a' = List.replicate (b + 1) 'a' := congrArg String.data h
  have h3 := congrArg List.length h2
  simpa using h3

theorem genB_injective : Function.Injective genB := by
  intro a b h
  have h2 : List.replicate (a + 1) 'b' = List.replicate (b + 1) 'b' := congrArg String.data h
  have h3 := congrArg List.length h2
  simpa using h3

theorem genA_all_a (k : Nat) : ((genA k).data.any (fun ch => decide (¬ ch = 'a'))) = false := by
  simp only [genA, List.any_eq_false]
  intro ch hch
  simp [List.eq_of_mem_replicate hch]

theorem genB_all_b (k : Nat) : ((genB k).data.any (fun ch => decide (¬ ch = 'b'))) = false := by
  simp only [genB, List.any_eq_false]
  intro ch hch
  simp [List.eq_of_mem_replicate hch]

theorem genA_fresh_c4 : FreshSeq genA c4Plan c4Breakdown := by
  have hall : ∀ s ∈ inputStrings c4Plan c4Breakdown,
      (s.data.isEmpty || s.data.any (fun ch => decide (¬ ch = 'a'))) = true := by decide
  intro k hk
  have h1 := hall _ hk
  rw [genA_all_a k] at h1
  simp [genA] at h1

theorem genB_fresh_c4 : FreshSeq genB c4Plan c4Breakdown := by
  have hall : ∀ s ∈ inputStrings c4Plan c4Breakdown,
      (s.data.isEmpty || s.data.any (fun ch => decide (¬ ch = 'b'))) = true := by decide
  intro k hk
  have h1 := hall _ hk
  rw [genB_all_b k] at h1
  simp [genB] at h1

/-- C8 witness: the isomorphism instantiated at the concrete §8 scenario
with the all-`a` and all-`b` id supplies. -/
theorem c8_reconciliation_rerun_isomorphic_witness :
    Function.Injective genA ∧ Function.Injective genB ∧
    FreshSeq genA c4Plan c4Breakdown ∧ FreshSeq genB c4Plan c4Breakdown ∧
    (∃ ρ : String → String,
      (∀ k, ρ (genA k) = genB k) ∧
      (∀ s ∈ inputStrings c4Plan c4Breakdown, ρ s = s) ∧
      mapGoalPlanIds ρ (engineRun genA 0 c4Plan c4Breakdown).1 =
        (engineRun genB 0 c4Plan c4Breakdown).1 ∧
      mapBreakdownIds ρ (engineRun genA 0 c4Plan c4Breakdown).2 =
        (engineRun genB 0 c4Plan c4Breakdown).2) :=
  ⟨genA_injective, genB_injective, genA_fresh_c4, genB_fresh_c4,
    c8_reconciliation_rerun_isomorphic c4Plan c4Breakdown genA genB 0 genA_injective genB_injective
      genA_fresh_c4 genB_fresh_c4⟩

end OneAgenda
